import Mathlib

/-!
# Calculator driver: register protocol

A shallow embedding of `calculator_driver.c` (with the parts of `logger.c` and
`calculator_driver.h` it uses) and theorems about its polling loop and its
command dispatch.

Modelling conventions

* A 32-bit word (`uint32_t`) is a `Nat` reduced modulo `2^32` where the C code
  stores or loads it.
* A C `float` is represented by the 32 bits of its storage, so the type puns
  `*((uint32_t *)&operand_a)` and `*((float *)&result_bits)` are the identity
  on that representation.
* `calculator_regs` is volatile device memory.  The device is a function `hw`
  from the history of accesses made so far to the word a load returns next;
  every load and store is appended to `trace` (most recent access first).
* `static` variables of the driver and of the logger are fields of `World`.
-/

namespace Calc

/-! ## Constants of `calculator_driver.h` and `calculator_driver.c` -/

def CALC_REG_CONTROL : Nat := 0x00
def CALC_REG_OPERAND_A : Nat := 0x04
def CALC_REG_OPERAND_B : Nat := 0x08
def CALC_REG_RESULT : Nat := 0x0C
def CALC_REG_STATUS : Nat := 0x10
def CALC_REG_ERROR_CODE : Nat := 0x2C

def CALC_CTRL_START_BIT : Nat := 31
def CALC_CTRL_OP_MASK : Nat := 0xF

def CALC_STATUS_BUSY : Nat := 0x01
def CALC_STATUS_ERROR : Nat := 0x02
def CALC_STATUS_DONE : Nat := 0x04

def CALC_OP_ADD : Nat := 0
def CALC_OP_SUB : Nat := 1
def CALC_OP_MUL : Nat := 2
def CALC_OP_DIV : Nat := 3

/-- Operation timeout, in polling iterations (`#define CALC_TIMEOUT 1000000`). -/
def CALC_TIMEOUT : Nat := 1000000

/-- Value of `LOG_LEVEL_ERROR` in `logger.h`. -/
def LOG_LEVEL_ERROR : Nat := 1

/-- Number of values of `uint32_t`. -/
def WORD : Nat := 4294967296

/-! ## The machine -/

/-- One access to the volatile register block `calculator_regs[idx]`. -/
inductive Event where
  | read (idx : Nat) (value : Nat)
  | write (idx : Nat) (value : Nat)
  deriving DecidableEq, Repr

/-- Driver, logger and device state.

* `calculator_regs` is `true` when the C pointer `calculator_regs` is not `NULL`;
* `logging_enabled` and `current_level` are the logger's `static` variables;
* `hw tr idx` is the word the device presents to a load of `calculator_regs[idx]`
  issued after the accesses `tr` (most recent first);
* `trace` is the history of loads and stores, most recent first. -/
structure World where
  calculator_regs : Bool
  logging_enabled : Bool
  current_level : Nat
  hw : List Event → Nat → Nat
  trace : List Event

/-- The C struct `calculator_status_t`. -/
structure calculator_status_t where
  busy : Bool
  error : Bool
  done : Bool
  deriving DecidableEq, Repr

/-- Volatile load `calculator_regs[idx]`. -/
def load (w : World) (idx : Nat) : Nat × World :=
  let v := w.hw w.trace idx % WORD
  (v, { w with trace := Event.read idx v :: w.trace })

/-- Volatile store `calculator_regs[idx] = value`. -/
def store (w : World) (idx : Nat) (value : Nat) : World :=
  { w with trace := Event.write idx (value % WORD) :: w.trace }

/-- Embedding of `calculator_write_reg`.  The two loads around the store are
the `old_value` and `readback` loads; their values only feed log messages. -/
def calculator_write_reg (w : World) (offset : Nat) (value : Nat) : World :=
  if w.calculator_regs = false then w
  else if offset > 0x3C then w
  else
    let reg_index := offset / 4
    let w1 := (load w reg_index).2
    let w2 := store w1 reg_index value
    (load w2 reg_index).2

/-- Embedding of `calculator_read_reg`. -/
def calculator_read_reg (w : World) (offset : Nat) : Nat × World :=
  if w.calculator_regs = false then (0, w)
  else if offset > 0x3C then (0, w)
  else load w (offset / 4)

/-- Decoding of the STATUS word, lines 188-190 of `calculator_get_status`. -/
def status_of_word (status_reg : Nat) : calculator_status_t :=
  { busy := (status_reg &&& CALC_STATUS_BUSY) != 0
    error := (status_reg &&& CALC_STATUS_ERROR) != 0
    done := (status_reg &&& CALC_STATUS_DONE) != 0 }

/-- Embedding of `calculator_get_status`. -/
def calculator_get_status (w : World) : calculator_status_t × World :=
  if w.calculator_regs = false then
    ({ busy := false, error := false, done := false }, w)
  else
    let r := calculator_read_reg w CALC_REG_STATUS
    (status_of_word r.1, r.2)

/-- The loop `for (i = 0; i < count; i++) value = regs[i]` of
`logger_register_dump`, unrolled from index `i`. -/
def dump_from (w : World) (i : Nat) : Nat → World
  | 0 => w
  | n + 1 => dump_from (load w i).2 (i + 1) n

/-- Embedding of `logger_register_dump(level, label, calculator_regs, count)`:
only its register loads are modelled. -/
def logger_register_dump (w : World) (level : Nat) (count : Nat) : World :=
  if w.logging_enabled = false ∨ level > w.current_level then w
  else if w.calculator_regs = false then w
  else dump_from w 0 count

/-- Which `return` statement of `calculator_wait_for_completion` was executed. -/
inductive WaitExit where
  /-- The `return 0` of line 215: `status.done || !status.busy`. -/
  | completed
  /-- The `return -1` of line 222: `status.error`. -/
  | hw_error
  /-- The `return -1` of line 230: `--timeout == 0`. -/
  | timed_out
  /-- The `return 0` of line 243, after the `do ... while`. -/
  | fell_through
  deriving DecidableEq, Repr

/-- Outcome of `calculator_wait_for_completion`: the returned `int`, the final
value of the local `poll_count`, the `return` taken, and the state. -/
structure WaitResult where
  ret : Int
  poll_count : Int
  exit : WaitExit
  world : World

/-- The `do { ... } while (status.busy);` loop of `calculator_wait_for_completion`
with the locals `timeout` and `poll_count` as arguments.  `fuel` bounds the
number of iterations the model unrolls; `none` means the fuel ran out. -/
def wait_loop : Nat → Int → Int → World → Option WaitResult
  | 0, _, _, _ => none
  | fuel + 1, timeout, poll_count, w =>
    let s := calculator_get_status w
    let status := s.1
    let w1 := s.2
    let poll_count := poll_count + 1
    if status.done || !status.busy then
      some { ret := 0, poll_count := poll_count, exit := .completed, world := w1 }
    else if status.error then
      let w2 := (calculator_read_reg w1 CALC_REG_ERROR_CODE).2
      some { ret := -1, poll_count := poll_count, exit := .hw_error, world := w2 }
    else
      let timeout := timeout - 1
      if timeout = 0 then
        let w2 := logger_register_dump w1 LOG_LEVEL_ERROR 16
        some { ret := -1, poll_count := poll_count, exit := .timed_out, world := w2 }
      else if status.busy then
        wait_loop fuel timeout poll_count w1
      else
        some { ret := 0, poll_count := poll_count, exit := .fell_through, world := w1 }

/-- Embedding of `calculator_wait_for_completion`: `timeout = CALC_TIMEOUT`,
`poll_count = 0`.  `CALC_TIMEOUT` iterations of fuel are enough: the result is never
`none` and more fuel does not change it (`wait_total`, `wait_fuel_independent`). -/
def calculator_wait_for_completion (w : World) : Option WaitResult :=
  wait_loop CALC_TIMEOUT CALC_TIMEOUT 0 w

/-- Outcome of `calculator_perform_operation`: the returned `int`, the object
`result` points to after the call (`none` for a `NULL` pointer), and the state. -/
structure OpResult where
  ret : Int
  result : Option Nat
  world : World

/-- Lines 273-282 of `calculator_perform_operation`, the busy pre-check.  The
result is `(true, w1)` when execution goes on at line 284 in state `w1`, and
`(false, w1)` when the function returns -1 at line 279 in state `w1`. -/
def busy_pre_check (w : World) : Option (Bool × World) :=
  let s := calculator_get_status w
  if s.1.busy then
    match calculator_wait_for_completion s.2 with
    | none => none
    | some r => if r.ret ≠ 0 then some (false, r.world) else some (true, r.world)
  else
    some (true, s.2)

/-- The three `calculator_write_reg` calls of lines 284-298: operand A, operand B,
then the control word `(1U << CALC_CTRL_START_BIT) | (op & CALC_CTRL_OP_MASK)`. -/
def write_command (w : World) (op operand_a operand_b : Nat) : World :=
  let operand_a_bits := operand_a % WORD
  let operand_b_bits := operand_b % WORD
  let w1 := calculator_write_reg w CALC_REG_OPERAND_A operand_a_bits
  let w2 := calculator_write_reg w1 CALC_REG_OPERAND_B operand_b_bits
  let control := (1 <<< CALC_CTRL_START_BIT) ||| (op &&& CALC_CTRL_OP_MASK)
  calculator_write_reg w2 CALC_REG_CONTROL control

/-- Lines 284-324 of `calculator_perform_operation`: the code after the busy
pre-check.  `old` is the value held by `*result` on entry. -/
def perform_after_busy_check (w : World) (op operand_a operand_b old : Nat) :
    Option OpResult :=
  let w3 := write_command w op operand_a operand_b
  match calculator_wait_for_completion w3 with
  | none => none
  | some r =>
    if r.ret ≠ 0 then
      let w4 := (calculator_read_reg r.world CALC_REG_ERROR_CODE).2
      some { ret := -1, result := some old, world := w4 }
    else
      let s := calculator_get_status r.world
      if s.1.error then
        let w5 := (calculator_read_reg s.2 CALC_REG_ERROR_CODE).2
        some { ret := -1, result := some old, world := w5 }
      else
        let rd := calculator_read_reg s.2 CALC_REG_RESULT
        let result_bits := rd.1
        some { ret := 0, result := some result_bits, world := rd.2 }

/-- Embedding of `calculator_perform_operation`.  `op` is the value of the
`calculator_operation_t` argument (an unsigned enumeration), `operand_a` and
`operand_b` are the storage bits of the two `float` arguments, and `result` is
`none` for a `NULL` pointer and `some old` for a pointer to a `float` whose
storage holds `old`. -/
def calculator_perform_operation (w : World) (op operand_a operand_b : Nat)
    (result : Option Nat) : Option OpResult :=
  if w.calculator_regs = false then
    some { ret := -1, result := result, world := w }
  else
    match result with
    | none => some { ret := -1, result := none, world := w }
    | some old =>
      if op > CALC_OP_DIV then
        some { ret := -1, result := some old, world := w }
      else
        match busy_pre_check w with
        | none => none
        | some (false, w1) => some { ret := -1, result := some old, world := w1 }
        | some (true, w1) => perform_after_busy_check w1 op operand_a operand_b old

/-! ## Observations on traces -/

/-- The stores of a trace, oldest first, as `(index, value)` pairs. -/
def writes_of : List Event → List (Nat × Nat)
  | [] => []
  | Event.read _ _ :: tr => writes_of tr
  | Event.write i v :: tr => writes_of tr ++ [(i, v)]

/-- The history after `j` further loads of the STATUS word and nothing else. -/
def poll_trace (w : World) : Nat → List Event
  | 0 => w.trace
  | j + 1 => Event.read 4 (w.hw (poll_trace w j) 4 % WORD) :: poll_trace w j

/-- The word the device presents to the `(j+1)`-th consecutive STATUS load. -/
def status_at (w : World) (j : Nat) : Nat :=
  w.hw (poll_trace w j) 4 % WORD

/-- The status word shows a command still running and nothing else:
`busy` set, `done` clear, `error` clear. -/
def busy_only (v : Nat) : Bool :=
  (status_of_word v).busy && !(status_of_word v).done && !(status_of_word v).error

/-- The status word satisfies the loop's success test `status.done || !status.busy`. -/
def shows_complete (v : Nat) : Bool :=
  (status_of_word v).done || !(status_of_word v).busy

/-- The state after `n` consecutive STATUS loads and nothing else. -/
def after_polls (w : World) (n : Nat) : World :=
  { w with trace := poll_trace w n }

/-- How the polling loop entered with locals `timeout` and `poll_count = pc` in
state `w` ends at its `n`-th poll with outcome `r`: by the success test, by the
error test, or by the timeout test. -/
def ends_at (w : World) (timeout pc : Int) (n : Nat) (r : WaitResult) : Prop :=
  (shows_complete (status_at w (n - 1)) = true ∧
      r = { ret := 0, poll_count := pc + n, exit := .completed, world := after_polls w n })
  ∨ (shows_complete (status_at w (n - 1)) = false ∧
      (status_of_word (status_at w (n - 1))).error = true ∧
      r = { ret := -1, poll_count := pc + n, exit := .hw_error,
            world := (calculator_read_reg (after_polls w n) CALC_REG_ERROR_CODE).2 })
  ∨ (busy_only (status_at w (n - 1)) = true ∧ (n : Int) = timeout ∧
      r = { ret := -1, poll_count := pc + n, exit := .timed_out,
            world := logger_register_dump (after_polls w n) LOG_LEVEL_ERROR 16 })

/-- The event is a load of the register at byte offset `offset`. -/
def is_read_of (offset : Nat) : Event → Bool
  | Event.read idx _ => idx == offset / 4
  | Event.write _ _ => false

/-- On a history (most recent first): no load of STATUS is more recent than a
load of ERROR_CODE. -/
def no_status_read_after_error_code : List Event → Bool
  | [] => true
  | e :: rest =>
    (!(is_read_of CALC_REG_STATUS e) || !(rest.any (is_read_of CALC_REG_ERROR_CODE)))
      && no_status_read_after_error_code rest

/-- The word returned by the most recent load of STATUS in a history, if any. -/
def last_status_read : List Event → Option Nat
  | [] => none
  | Event.read idx v :: rest =>
    if idx = CALC_REG_STATUS / 4 then some v else last_status_read rest
  | Event.write _ _ :: rest => last_status_read rest

/-- On a history (most recent first): every store to CONTROL, OPERAND_A or
OPERAND_B is preceded by a load of STATUS, and the most recent such load showed
`done` set or `busy` clear. -/
def writes_follow_completion : List Event → Bool
  | [] => true
  | Event.read _ _ :: rest => writes_follow_completion rest
  | Event.write idx _ :: rest =>
    (if idx = CALC_REG_CONTROL / 4 ∨ idx = CALC_REG_OPERAND_A / 4
          ∨ idx = CALC_REG_OPERAND_B / 4 then
        match last_status_read rest with
        | some v => shows_complete v
        | none => false
      else true)
    && writes_follow_completion rest

/-- The values stored to word `idx` in a history, oldest first. -/
def stores_to (idx : Nat) (tr : List Event) : List Nat :=
  (writes_of tr).filterMap (fun p => if p.1 = idx then some p.2 else none)

/-- Two states differ at most in their history. -/
def same_machine (w w' : World) : Prop :=
  w'.calculator_regs = w.calculator_regs ∧ w'.logging_enabled = w.logging_enabled ∧
    w'.current_level = w.current_level ∧ w'.hw = w.hw

/-- Every event of the list is a load of STATUS (word 4). -/
def all_status_reads (p : List Event) : Prop :=
  ∀ e ∈ p, ∃ v, e = Event.read 4 v

/-- Every event of the list is a load. -/
def all_reads (p : List Event) : Prop :=
  ∀ e ∈ p, ∃ idx v, e = Event.read idx v

/-- The nine accesses of the three register writes of a command, most recent
first, with `v1 .. v6` the words returned by the `old_value` and `readback` loads. -/
def command_accesses (op a b v1 v2 v3 v4 v5 v6 : Nat) : List Event :=
  [Event.read 0 v6,
   Event.write 0 ((1 <<< CALC_CTRL_START_BIT) ||| (op &&& CALC_CTRL_OP_MASK)),
   Event.read 0 v5,
   Event.read 2 v4, Event.write 2 (b % WORD), Event.read 2 v3,
   Event.read 1 v2, Event.write 1 (a % WORD), Event.read 1 v1]

/-- A device whose registers read as the constant word `v`. -/
def const_hw (v : Nat) : List Event → Nat → Nat :=
  fun _ _ => v

/-- A device whose registers read as 1 (busy) for the first `m` accesses and as
4 (done) afterwards. -/
def late_hw (m : Nat) : List Event → Nat → Nat :=
  fun tr _ => if tr.length < m then 1 else 4

/-- A synchronous fake device: STATUS and every other register read as 0, except
RESULT (word 3), which holds `result`. -/
def sync_hw (result : Nat) : List Event → Nat → Nat :=
  fun _ idx => if idx = 3 then result else 0

/-- An initialised driver in front of the device `hw`, with an empty history
and the logger in its default configuration (`LOG_LEVEL_INFO`, enabled). -/
def fresh_world (hw : List Event → Nat → Nat) : World :=
  { calculator_regs := true, logging_enabled := true, current_level := 3,
    hw := hw, trace := [] }

/-- The control word of line 296,
`(1U << CALC_CTRL_START_BIT) | (op & CALC_CTRL_OP_MASK)`, as `write_command`
stores it to CONTROL. -/
def control_word (op : Nat) : Nat :=
  (1 <<< CALC_CTRL_START_BIT) ||| (op &&& CALC_CTRL_OP_MASK)

/-! ## Driver lifecycle -/

def CALC_REG_VERSION : Nat := 0x3C

/-- Value of `LOG_LEVEL_TRACE` in `logger.h`. -/
def LOG_LEVEL_TRACE : Nat := 5

/-- Value of the pointer `virtual_base`: `NULL`, `MAP_FAILED`, or the address of a
mapping returned by `mmap`. -/
inductive MapPtr where
  | null
  | map_failed
  | mapped
  deriving DecidableEq, Repr

/-- The `static` variables `virtual_base` and `mem_fd` of the driver, next to the
state `World` that holds `calculator_regs`. -/
structure Driver where
  virtual_base : MapPtr
  mem_fd : Int
  world : World

/-- The driver's `static` variables hold their initialisers of lines 27-29:
`virtual_base = NULL`, `mem_fd = -1`, `calculator_regs = NULL`. -/
def is_fresh (d : Driver) : Prop :=
  d.virtual_base = MapPtr.null ∧ d.mem_fd = -1 ∧ d.world.calculator_regs = false

/-- Embedding of `calculator_init`.  `open_result` is the value returned by
`open("/dev/mem", ...)` and `mmap_ok` tells whether `mmap` returned a mapping
rather than `MAP_FAILED`. -/
def calculator_init (d : Driver) (open_result : Int) (mmap_ok : Bool) : Int × Driver :=
  let d1 : Driver := { d with mem_fd := open_result }
  if d1.mem_fd = -1 then (-1, d1)
  else
    let d2 : Driver :=
      { d1 with virtual_base := if mmap_ok then MapPtr.mapped else MapPtr.map_failed }
    if d2.virtual_base = MapPtr.map_failed then
      (-1, { d2 with mem_fd := -1 })
    else
      let w1 : World := { d2.world with calculator_regs := true }
      let w2 := (calculator_read_reg w1 CALC_REG_VERSION).2
      let w3 := logger_register_dump w2 LOG_LEVEL_TRACE 16
      (0, { d2 with world := w3 })

/-- Embedding of `calculator_cleanup`. -/
def calculator_cleanup (d : Driver) : Driver :=
  let virtual_base :=
    if d.virtual_base ≠ MapPtr.null ∧ d.virtual_base ≠ MapPtr.map_failed then MapPtr.null
    else d.virtual_base
  let mem_fd := if d.mem_fd ≥ 0 then -1 else d.mem_fd
  { virtual_base := virtual_base, mem_fd := mem_fd,
    world := { d.world with calculator_regs := false } }

/-- The driver has not been initialised: its variables hold their initialisers, or
it is the outcome of a failed `calculator_init` started from such a state, or the
outcome of `calculator_cleanup`. -/
def not_initialised (d : Driver) : Prop :=
  is_fresh d
  ∨ (∃ d0 open_result mmap_ok, is_fresh d0 ∧ (calculator_init d0 open_result mmap_ok).1 ≠ 0 ∧
      d = (calculator_init d0 open_result mmap_ok).2)
  ∨ (∃ d0, d = calculator_cleanup d0)

/-- A process that has not called `calculator_init`, in front of the device `hw`,
with the logger in its default configuration. -/
def fresh_driver (hw : List Event → Nat → Nat) : Driver :=
  { virtual_base := MapPtr.null, mem_fd := -1,
    world := { calculator_regs := false, logging_enabled := true, current_level := 3,
               hw := hw, trace := [] } }

/-- A device whose STATUS reads 6 (done and error, not busy), whose ERROR_CODE
(word 11) reads `code`, and whose other registers read 0. -/
def error_hw (code : Nat) : List Event → Nat → Nat :=
  fun _ idx => if idx = 4 then 6 else if idx = 11 then code else 0

/-- A device whose registers behave as plain memory: a load returns the word most
recently stored to that index, or `init idx` when nothing was stored there. -/
def plain_hw (init : Nat → Nat) : List Event → Nat → Nat
  | [], idx => init idx
  | Event.read _ _ :: tr, idx => plain_hw init tr idx
  | Event.write i v :: tr, idx => if i = idx then v else plain_hw init tr idx

/-! ## Buffer manager

`calculator_driver.h` declares the buffer functions; their code is not part of the
sources, so they are modelled from the specification (§3 `BufferState`, §4.4, §6). -/

def CALC_REG_BUFFER_CTRL : Nat := 0x18
def CALC_REG_BUFFER_WRITE : Nat := 0x1C

/-- Modelled from the spec: the capacity of the price buffer, `capacity: 256` in the
`BufferState` of §3; the header declares no such constant. -/
def BUFFER_CAPACITY : Nat := 256

/-- Modelled from the spec: the `BufferState` of §3, the driver's mirror of the
hardware buffer (`fill_count`, `window_size`, and the storage bits of `alpha`); the
driver code that holds it is missing. -/
structure BufferState where
  fill_count : Nat
  window_size : Nat
  alpha : Nat

/-- Modelled from the spec: `calculator_buffer_write_price`, declared in the header
without code.  §4.4: "rejected once `fill_count == capacity`; otherwise forwards to
hardware buffer register and increments `fill_count`"; the header gives the return
values 0 on success and -1 if the buffer is full. -/
def calculator_buffer_write_price (b : BufferState) (w : World) (price : Nat) :
    Int × BufferState × World :=
  if b.fill_count = BUFFER_CAPACITY then (-1, b, w)
  else
    (0, { b with fill_count := b.fill_count + 1 },
      calculator_write_reg w CALC_REG_BUFFER_WRITE (price % WORD))

/-- Modelled from the spec: `calculator_buffer_reset`, declared in the header without
code.  §4.4: "clears `fill_count` to 0 and issues the hardware buffer-reset signal;
always succeeds"; by §6 the signal is bit 16 of BUFFER_CTRL, whose bits 15..0 hold the
window size. -/
def calculator_buffer_reset (b : BufferState) (w : World) : BufferState × World :=
  ({ b with fill_count := 0 },
    calculator_write_reg w CALC_REG_BUFFER_CTRL ((1 <<< 16) ||| (b.window_size % 65536)))

/-- Consecutive calls of `calculator_buffer_write_price`, one per price of the list:
the values returned, in order, and the final state. -/
def write_prices (b : BufferState) (w : World) : List Nat → List Int × BufferState × World
  | [] => ([], b, w)
  | price :: rest =>
    let r := calculator_buffer_write_price b w price
    let rs := write_prices r.2.1 r.2.2 rest
    (r.1 :: rs.1, rs.2)

def CALC_OP_SMA : Nat := 4
def CALC_OP_STD_DEV : Nat := 8
def CALC_OP_MIN : Nat := 12
def CALC_OP_MAX : Nat := 13
def CALC_OP_RANGE : Nat := 14

/-- Modelled from the spec: `calculator_set_window_size`, declared in the header
(as `void`, parameter "1-256") without code.  §4.4: "`set_window_size(size:
1..=capacity) -> Result<(), InvalidWindow>`: rejects 0 or values exceeding capacity";
0 stands for `Ok` and -1 for `InvalidWindow`.  An accepted size is recorded in the
mirror and forwarded to bits 15..0 of BUFFER_CTRL (§6). -/
def calculator_set_window_size (b : BufferState) (w : World) (window_size : Nat) :
    Int × BufferState × World :=
  if window_size = 0 ∨ window_size > BUFFER_CAPACITY then (-1, b, w)
  else
    (0, { b with window_size := window_size },
      calculator_write_reg w CALC_REG_BUFFER_CTRL window_size)

/-- Modelled from the spec: the `execute` of §4.3 as the windowed API of §4.4 calls
it, with "the full set" of operation codes 0..14 allowed; its code is missing.  It
follows `calculator_perform_operation` line by line except for the bound on `op`. -/
def execute_statistic (w : World) (op operand_a operand_b : Nat) (result : Option Nat) :
    Option OpResult :=
  if w.calculator_regs = false then
    some { ret := -1, result := result, world := w }
  else
    match result with
    | none => some { ret := -1, result := none, world := w }
    | some old =>
      if op > CALC_OP_RANGE then
        some { ret := -1, result := some old, world := w }
      else
        match busy_pre_check w with
        | none => none
        | some (false, w1) => some { ret := -1, result := some old, world := w1 }
        | some (true, w1) => perform_after_busy_check w1 op operand_a operand_b old

/-- Modelled from the spec: the `compute` of §4.4 behind `calculator_sma`,
`calculator_std_dev`, `calculator_min` and `calculator_max`, which the header declares
with a `window` and a `result` parameter and no code.  §4.4: "requires `window_size
<= fill_count`; on success delegates to CommandDispatcher with the configured window
size ... as the second operand channel", `window_size` being the configured size of
the `BufferState` (§3: "`window_size <= fill_count` must hold before any windowed
statistic is requested").  The header asks that the `window` argument "must match
configured window_size"; the precondition and the operand are those of the spec, the
configured size, so the argument has no effect of its own. -/
def windowed_statistic (op : Nat) (b : BufferState) (w : World) (_window : Nat)
    (result : Option Nat) : Option OpResult :=
  if b.window_size > b.fill_count then
    some { ret := -1, result := result, world := w }
  else
    execute_statistic w op 0 b.window_size result

/-- Modelled from the spec: `calculator_sma`, see `windowed_statistic`. -/
def calculator_sma (b : BufferState) (w : World) (window : Nat) (result : Option Nat) :
    Option OpResult :=
  windowed_statistic CALC_OP_SMA b w window result

/-- Modelled from the spec: `calculator_std_dev`, see `windowed_statistic`. -/
def calculator_std_dev (b : BufferState) (w : World) (window : Nat) (result : Option Nat) :
    Option OpResult :=
  windowed_statistic CALC_OP_STD_DEV b w window result

/-- Modelled from the spec: `calculator_min`, see `windowed_statistic`. -/
def calculator_min (b : BufferState) (w : World) (window : Nat) (result : Option Nat) :
    Option OpResult :=
  windowed_statistic CALC_OP_MIN b w window result

/-- Modelled from the spec: `calculator_max`, see `windowed_statistic`. -/
def calculator_max (b : BufferState) (w : World) (window : Nat) (result : Option Nat) :
    Option OpResult :=
  windowed_statistic CALC_OP_MAX b w window result

end Calc

/-!
# UIO register transport and LED controller

A shallow embedding of `fpga_uio.c` and `led_controller.c`.

* The address space reached through `map_base` is byte addressed and behaves as
  memory; `bytes a` is the byte at address `map_base + a`, and the mapping made by
  `mmap` is the addresses `a < map_size`.  A 32-bit access at `offset` covers the four
  bytes `offset .. offset + 3`, least significant byte first.
* Pointer arguments that may be `NULL` are `Option`s.  `ctrl->uio_dev` is modelled by
  the value of the structure it points to.
* `errno` is not modelled.
-/

namespace Led

/-- The C struct `fpga_uio_dev_t`. -/
structure fpga_uio_dev_t where
  fd : Int
  map_base : Calc.MapPtr
  map_size : Nat
  is_initialized : Bool
  deriving DecidableEq, Repr

/-- The memory behind `map_base` and the history of the 32-bit stores made through
the transport, as `(offset, value)` pairs, most recent first. -/
structure UioMem where
  bytes : Nat → Nat
  writes : List (Nat × Nat)

/-- The store `*addr = value` of `fpga_uio_write32`, `addr = map_base + offset`. -/
def store32 (m : UioMem) (offset value : Nat) : UioMem :=
  let v := value % Calc.WORD
  { bytes := fun a =>
      if a = offset then v % 256
      else if a = offset + 1 then v / 256 % 256
      else if a = offset + 2 then v / 65536 % 256
      else if a = offset + 3 then v / 16777216 % 256
      else m.bytes a
    writes := (offset, v) :: m.writes }

/-- The load `*addr` of `fpga_uio_read32`, `addr = map_base + offset`. -/
def load32 (m : UioMem) (offset : Nat) : Nat :=
  m.bytes offset % 256 + 256 * (m.bytes (offset + 1) % 256)
    + 65536 * (m.bytes (offset + 2) % 256) + 16777216 * (m.bytes (offset + 3) % 256)

/-- Embedding of `fpga_uio_write32`: the returned `int` and the memory. -/
def fpga_uio_write32 (m : UioMem) (dev : Option fpga_uio_dev_t) (offset value : Nat) :
    Int × UioMem :=
  match dev with
  | none => (-1, m)
  | some d =>
    if d.is_initialized = false ∨ offset ≥ d.map_size then (-1, m)
    else (0, store32 m offset value)

/-- Embedding of `fpga_uio_read32`: the returned `int` and the object `value` points
to after the call (`none` for a `NULL` pointer, `some old` on entry for a pointer to
an object holding `old`). -/
def fpga_uio_read32 (m : UioMem) (dev : Option fpga_uio_dev_t) (offset : Nat)
    (value : Option Nat) : Int × Option Nat :=
  match dev with
  | none => (-1, value)
  | some d =>
    if d.is_initialized = false ∨ value = none ∨ offset ≥ d.map_size then (-1, value)
    else (0, some (load32 m offset))

/-- The C struct `led_controller_t`. -/
structure led_controller_t where
  uio_dev : Option fpga_uio_dev_t
  led_offset : Nat
  num_leds : Int
  active_low : Bool
  should_stop : Bool

/-- The operator `~` on `uint32_t`. -/
def not32 (x : Nat) : Nat :=
  Calc.WORD - 1 - x % Calc.WORD

/-- Lines 50-56 of `led_controller_set_mask`: the word passed to `fpga_uio_write32`.
`(1 << num_leds) - 1` is `int` arithmetic converted to `uint32_t`; it is taken modulo
`2^32`, which is its value for `num_leds` in 0..31. -/
def led_register_word (ctrl : led_controller_t) (mask : Nat) : Nat :=
  let mask := if ctrl.active_low then not32 mask else mask % Calc.WORD
  mask &&& (((1 <<< ctrl.num_leds.toNat) + Calc.WORD - 1) % Calc.WORD)

/-- Embedding of `led_controller_set_mask`. -/
def led_controller_set_mask (m : UioMem) (ctrl : Option led_controller_t) (mask : Nat) :
    Int × UioMem :=
  match ctrl with
  | none => (-1, m)
  | some c => fpga_uio_write32 m c.uio_dev c.led_offset (led_register_word c mask)

/-- Embedding of `led_controller_init`: the returned `int`, the object `ctrl` points
to after the call, and the memory. -/
def led_controller_init (m : UioMem) (ctrl : Option led_controller_t)
    (uio_dev : Option fpga_uio_dev_t) (led_offset : Nat) (num_leds : Int)
    (active_low : Bool) : Int × Option led_controller_t × UioMem :=
  match ctrl with
  | none => (-1, none, m)
  | some c =>
    if uio_dev = none ∨ num_leds ≤ 0 then (-1, some c, m)
    else
      let c1 : led_controller_t :=
        { uio_dev := uio_dev, led_offset := led_offset, num_leds := num_leds,
          active_low := active_low, should_stop := false }
      let r := led_controller_set_mask m (some c1) (if c1.active_low then 0xFFFFFFFF else 0)
      (r.1, some c1, r.2)

/-- Embedding of `led_controller_set_led`.  The local `current_mask` is
uninitialised before the read; it is given the content 0. -/
def led_controller_set_led (m : UioMem) (ctrl : Option led_controller_t) (led_index : Int)
    (state : Bool) : Int × UioMem :=
  match ctrl with
  | none => (-1, m)
  | some c =>
    if led_index < 0 ∨ led_index ≥ c.num_leds then (-1, m)
    else
      match fpga_uio_read32 m c.uio_dev c.led_offset (some 0) with
      | (0, some current_mask) =>
        let current_mask :=
          if xor state c.active_low then
            current_mask ||| ((1 <<< led_index.toNat) % Calc.WORD)
          else
            current_mask &&& not32 (1 <<< led_index.toNat)
        fpga_uio_write32 m c.uio_dev c.led_offset current_mask
      | _ => (-1, m)

/-- The `while` loop of `led_controller_run_animation` with the locals `cycle_count`,
`led_mask` and `direction` as arguments.  `stop k` is the value of the volatile
`ctrl->should_stop` read by the `k`-th evaluation of the loop condition that reaches
it; `fuel` bounds the number of iterations the model unrolls, `none` meaning that the
fuel ran out.  The result is the returned `int` and the memory. -/
def animation_loop (c : led_controller_t) (num_cycles : Int) (stop : Nat → Bool) :
    Nat → Nat → Int → Nat → Bool → UioMem → Option (Int × UioMem)
  | 0, _, _, _, _, _ => none
  | fuel + 1, k, cycle_count, led_mask, direction, m =>
    if cycle_count < num_cycles ∧ stop k = false then
      let r := led_controller_set_mask m (some c) led_mask
      if r.1 ≠ 0 then some (-1, r.2)
      else if direction = false then
        let led_mask := (led_mask <<< 1) % Calc.WORD
        if led_mask ≥ (1 <<< (c.num_leds - 1).toNat) % Calc.WORD then
          animation_loop c num_cycles stop fuel (k + 1) cycle_count led_mask true r.2
        else
          animation_loop c num_cycles stop fuel (k + 1) cycle_count led_mask false r.2
      else
        let led_mask := led_mask >>> 1
        if led_mask = 0x01 then
          animation_loop c num_cycles stop fuel (k + 1) (cycle_count + 1) led_mask false r.2
        else
          animation_loop c num_cycles stop fuel (k + 1) cycle_count led_mask true r.2
    else
      some (led_controller_set_mask m (some c) 0)

/-- Embedding of `led_controller_run_animation`.  The assignment
`ctrl->should_stop = false` is followed by reads that `stop` answers. -/
def led_controller_run_animation (fuel : Nat) (m : UioMem) (ctrl : Option led_controller_t)
    (num_cycles : Int) (stop : Nat → Bool) : Option (Int × UioMem) :=
  match ctrl with
  | none => some (-1, m)
  | some c =>
    if num_cycles ≤ 0 then some (-1, m)
    else animation_loop c num_cycles stop fuel 0 0 0x01 false m

/-- One sweep of the animation for `n` LEDs: the masks `2^0 .. 2^(n-2)` on the way up,
then `2^(n-1) .. 2^1` on the way down. -/
def sweep (n : Nat) : List Nat :=
  (List.range (n - 1)).map (fun i => 2 ^ i)
    ++ (List.range (n - 1)).reverse.map (fun i => 2 ^ (i + 1))

/-- The masks of `cycles` sweeps, in order. -/
def animation_masks (n cycles : Nat) : List Nat :=
  (List.replicate cycles (sweep n)).flatten

/-- Memory after `led_controller_set_mask` was called with each mask of the list in
turn. -/
def write_masks (c : led_controller_t) (m : UioMem) (masks : List Nat) : UioMem :=
  masks.foldl (fun m mask => (led_controller_set_mask m (some c) mask).2) m

/-- A mapped and initialised UIO device of `map_size` bytes. -/
def mapped_dev (map_size : Nat) : fpga_uio_dev_t :=
  { fd := 3, map_base := Calc.MapPtr.mapped, map_size := map_size, is_initialized := true }

/-- Memory that reads as zero, with no store made yet. -/
def zero_mem : UioMem :=
  { bytes := fun _ => 0, writes := [] }

/-- A controller for `num_leds` LEDs at offset 0 of a mapped device of 0x1000 bytes
(the values of `config.h`). -/
def board_ctrl (num_leds : Int) (active_low : Bool) : led_controller_t :=
  { uio_dev := some (mapped_dev 0x1000), led_offset := 0, num_leds := num_leds,
    active_low := active_low, should_stop := false }

end Led

namespace Calc

/-! ## Basic facts -/

theorem after_polls_zero (w : World) : after_polls w 0 = w := rfl

theorem get_status_init (w : World) (h : w.calculator_regs = true) :
    calculator_get_status w = (status_of_word (status_at w 0), after_polls w 1) := by
  simp [calculator_get_status, calculator_read_reg, h, CALC_REG_STATUS, load, status_at,
    after_polls, poll_trace]

theorem poll_trace_shift (w : World) (j : Nat) :
    poll_trace (after_polls w 1) j = poll_trace w (j + 1) := by
  induction j with
  | zero => rfl
  | succ j ih =>
    show Event.read 4 ((after_polls w 1).hw (poll_trace (after_polls w 1) j) 4 % WORD)
        :: poll_trace (after_polls w 1) j = _
    rw [ih]
    rfl

theorem status_at_shift (w : World) (j : Nat) :
    status_at (after_polls w 1) j = status_at w (j + 1) := by
  simp only [status_at, poll_trace_shift]
  rfl

theorem after_polls_shift (w : World) (n : Nat) :
    after_polls (after_polls w 1) n = after_polls w (n + 1) := by
  show { after_polls w 1 with trace := poll_trace (after_polls w 1) n } = _
  rw [poll_trace_shift]
  rfl

/-! ## The polling loop -/

theorem busy_only_of_not_complete (v : Nat) (hc : shows_complete v = false)
    (he : (status_of_word v).error = false) : busy_only v = true := by
  simp only [shows_complete, Bool.or_eq_false_iff, Bool.not_eq_false'] at hc
  simp [busy_only, hc.1, hc.2, he]

theorem not_complete_of_busy_only (v : Nat) (h : busy_only v = true) :
    shows_complete v = false := by
  simp only [busy_only, Bool.and_eq_true, Bool.not_eq_true'] at h
  simp [shows_complete, h.1.1, h.1.2]

theorem no_error_of_busy_only (v : Nat) (h : busy_only v = true) :
    (status_of_word v).error = false := by
  simp only [busy_only, Bool.and_eq_true, Bool.not_eq_true'] at h
  exact h.2

/-- With a positive `timeout` and at least `timeout` iterations of fuel, the loop
returns; it polls `n` times, the first `n - 1` polls show `busy_only`, and it ends
at the `n`-th poll in one of the three ways of `ends_at`. -/
theorem wait_loop_run (fuel : Nat) : ∀ (timeout pc : Int) (w : World),
    w.calculator_regs = true → 1 ≤ timeout → timeout ≤ fuel →
    ∃ (n : Nat) (r : WaitResult), wait_loop fuel timeout pc w = some r ∧
      1 ≤ n ∧ (n : Int) ≤ timeout ∧
      (∀ j, j + 1 < n → busy_only (status_at w j) = true) ∧
      ends_at w timeout pc n r := by
  induction fuel with
  | zero =>
    intro timeout pc w _ h1 h2
    exact absurd (le_trans h1 h2) (by decide)
  | succ fuel ih =>
    intro timeout pc w hreg h1 h2
    rw [wait_loop]
    simp only [get_status_init w hreg]
    cases hc : shows_complete (status_at w 0) with
    | true =>
      have hc' : ((status_of_word (status_at w 0)).done
          || !(status_of_word (status_at w 0)).busy) = true := hc
      refine ⟨1, _, by rw [if_pos hc'], le_refl 1, by exact_mod_cast h1, ?_, ?_⟩
      · intro j hj; omega
      · exact Or.inl ⟨hc, by simp⟩
    | false =>
      have hc' : ¬ (((status_of_word (status_at w 0)).done
          || !(status_of_word (status_at w 0)).busy) = true) := by
        intro h; exact absurd (show shows_complete (status_at w 0) = true from h) (by simp [hc])
      rw [if_neg hc']
      cases he : (status_of_word (status_at w 0)).error with
      | true =>
        refine ⟨1, _, by rw [if_pos rfl], le_refl 1, by exact_mod_cast h1, ?_, ?_⟩
        · intro j hj; omega
        · exact Or.inr (Or.inl ⟨hc, he, by simp⟩)
      | false =>
        have hb := busy_only_of_not_complete _ hc he
        have hbusy : (status_of_word (status_at w 0)).busy = true := by
          simp only [busy_only, Bool.and_eq_true] at hb
          exact hb.1.1
        rw [if_neg (by decide : ¬ (false = true))]
        by_cases ht : timeout - 1 = 0
        · refine ⟨1, _, by rw [if_pos ht], le_refl 1, by exact_mod_cast h1, ?_, ?_⟩
          · intro j hj; omega
          · exact Or.inr (Or.inr ⟨hb, by omega, by simp⟩)
        · obtain ⟨n, r, hr, hn1, hn2, hpre, hend⟩ :=
            ih (timeout - 1) (pc + 1) (after_polls w 1) hreg (by omega)
              (by push_cast at h2; omega)
          refine ⟨n + 1, r, by rw [if_neg ht, if_pos hbusy, hr], by omega,
            by push_cast; omega, ?_, ?_⟩
          · intro j hj
            cases j with
            | zero => exact hb
            | succ j =>
              have := hpre j (by omega)
              rwa [status_at_shift] at this
          · have hidx : n + 1 - 1 = (n - 1) + 1 := by omega
            unfold ends_at at hend ⊢
            rw [hidx]
            rcases hend with ⟨h, e⟩ | ⟨h, h', e⟩ | ⟨h, h', e⟩
            · refine Or.inl ⟨by rwa [status_at_shift] at h, ?_⟩
              rw [e, after_polls_shift]; simp; omega
            · refine Or.inr (Or.inl ⟨by rwa [status_at_shift] at h,
                by rwa [status_at_shift] at h', ?_⟩)
              rw [e, after_polls_shift]; simp; omega
            · refine Or.inr (Or.inr ⟨by rwa [status_at_shift] at h, by push_cast; omega, ?_⟩)
              rw [e, after_polls_shift]; simp; omega

/-! ## What each operation adds to the history -/

theorem poll_trace_segment (w : World) (n : Nat) :
    ∃ p, poll_trace w n = p ++ w.trace ∧ p.length = n ∧
      ∀ e ∈ p, ∃ v, e = Event.read 4 v := by
  induction n with
  | zero => exact ⟨[], rfl, rfl, by simp⟩
  | succ n ih =>
    obtain ⟨p, hp, hl, hall⟩ := ih
    refine ⟨Event.read 4 (w.hw (poll_trace w n) 4 % WORD) :: p, ?_, by simp [hl], ?_⟩
    · show Event.read 4 _ :: poll_trace w n = _
      rw [hp]; rfl
    · intro e he
      rcases List.mem_cons.1 he with h | h
      · exact ⟨_, h⟩
      · exact hall e h

theorem read_reg_trace (w : World) (offset : Nat) (hreg : w.calculator_regs = true)
    (hoff : offset ≤ 0x3C) :
    (calculator_read_reg w offset).2.trace
      = Event.read (offset / 4) (w.hw w.trace (offset / 4) % WORD) :: w.trace := by
  have : ¬ offset > 0x3C := by omega
  simp [calculator_read_reg, hreg, this, load]

theorem write_reg_trace (w : World) (offset value : Nat) (hreg : w.calculator_regs = true)
    (hoff : offset ≤ 0x3C) :
    ∃ v1 v2, (calculator_write_reg w offset value).trace
      = Event.read (offset / 4) v2 :: Event.write (offset / 4) (value % WORD)
          :: Event.read (offset / 4) v1 :: w.trace := by
  have : ¬ offset > 0x3C := by omega
  refine ⟨w.hw w.trace (offset / 4) % WORD,
    w.hw (Event.write (offset / 4) (value % WORD)
      :: Event.read (offset / 4) (w.hw w.trace (offset / 4) % WORD) :: w.trace) (offset / 4) % WORD,
    ?_⟩
  simp [calculator_write_reg, hreg, this, load, store]

theorem no_status_read_after_error_code_append (a b : List Event) :
    no_status_read_after_error_code (a ++ b)
      = (no_status_read_after_error_code a && no_status_read_after_error_code b
          && (!(a.any (is_read_of CALC_REG_STATUS))
              || !(b.any (is_read_of CALC_REG_ERROR_CODE)))) := by
  induction a with
  | nil => simp [no_status_read_after_error_code]
  | cons e a ih =>
    show ((!(is_read_of CALC_REG_STATUS e)
          || !((a ++ b).any (is_read_of CALC_REG_ERROR_CODE)))
        && no_status_read_after_error_code (a ++ b)) =
      (((!(is_read_of CALC_REG_STATUS e) || !(a.any (is_read_of CALC_REG_ERROR_CODE)))
          && no_status_read_after_error_code a) && no_status_read_after_error_code b
        && (!((e :: a).any (is_read_of CALC_REG_STATUS))
            || !(b.any (is_read_of CALC_REG_ERROR_CODE))))
    rw [ih, List.any_append, List.any_cons]
    cases is_read_of CALC_REG_STATUS e <;> cases a.any (is_read_of CALC_REG_STATUS)
      <;> cases a.any (is_read_of CALC_REG_ERROR_CODE)
      <;> cases b.any (is_read_of CALC_REG_ERROR_CODE)
      <;> cases no_status_read_after_error_code a
      <;> cases no_status_read_after_error_code b <;> rfl

theorem dump_from_segment (n : Nat) : ∀ (w : World) (i : Nat),
    ∃ d, (dump_from w i n).trace = d ++ w.trace ∧ d.length = n ∧
      (∀ e ∈ d, ∃ idx v, e = Event.read idx v ∧ i ≤ idx) ∧
      no_status_read_after_error_code d = true := by
  induction n with
  | zero => intro w i; exact ⟨[], rfl, rfl, by simp, rfl⟩
  | succ n ih =>
    intro w i
    obtain ⟨d, hd, hl, hall, hok⟩ := ih (load w i).2 (i + 1)
    refine ⟨d ++ [Event.read i (w.hw w.trace i % WORD)], ?_, by simp [hl], ?_, ?_⟩
    · show (dump_from (load w i).2 (i + 1) n).trace = _
      rw [hd]; simp [load]
    · intro e he
      rcases List.mem_append.1 he with h | h
      · obtain ⟨idx, v, h1, h2⟩ := hall e h
        exact ⟨idx, v, h1, by omega⟩
      · exact ⟨i, _, by simpa using h, le_refl i⟩
    · rw [no_status_read_after_error_code_append, hok]
      by_cases hi : i = 11
      · have hns : d.any (is_read_of CALC_REG_STATUS) = false := by
          rw [List.any_eq_false]
          intro e he
          obtain ⟨idx, v, h1, h2⟩ := hall e he
          subst h1
          have : idx ≠ 4 := by omega
          simp [is_read_of, CALC_REG_STATUS, this]
        simp [hns, no_status_read_after_error_code]
      · simp [no_status_read_after_error_code, is_read_of, CALC_REG_ERROR_CODE, hi]

/-! ## `calculator_wait_for_completion` -/

theorem wait_uninitialised (w : World) (h : w.calculator_regs = false) :
    calculator_wait_for_completion w
      = some { ret := 0, poll_count := 1, exit := .completed, world := w } := by
  show wait_loop (999999 + 1) _ _ _ = _
  rw [wait_loop]
  simp [calculator_get_status, h]

theorem wait_run (w : World) (hreg : w.calculator_regs = true) :
    ∃ (n : Nat) (r : WaitResult), calculator_wait_for_completion w = some r ∧
      1 ≤ n ∧ n ≤ CALC_TIMEOUT ∧
      (∀ j, j + 1 < n → busy_only (status_at w j) = true) ∧
      ends_at w CALC_TIMEOUT 0 n r := by
  obtain ⟨n, r, h1, h2, h3, h4, h5⟩ :=
    wait_loop_run CALC_TIMEOUT CALC_TIMEOUT 0 w hreg (by decide) (le_refl _)
  exact ⟨n, r, h1, h2, by exact_mod_cast h3, h4, h5⟩

theorem wait_total (w : World) : ∃ r, calculator_wait_for_completion w = some r := by
  cases hreg : w.calculator_regs with
  | false => exact ⟨_, wait_uninitialised w hreg⟩
  | true =>
    obtain ⟨_, r, hr, _⟩ := wait_run w hreg
    exact ⟨r, hr⟩

theorem wait_loop_fuel_succ (fuel : Nat) : ∀ (timeout pc : Int) (w : World) (r : WaitResult),
    wait_loop fuel timeout pc w = some r → wait_loop (fuel + 1) timeout pc w = some r := by
  induction fuel with
  | zero => intro timeout pc w r h; exact absurd h (by simp [wait_loop])
  | succ fuel ih =>
    intro timeout pc w r h
    rw [wait_loop] at h
    rw [wait_loop]
    dsimp only at h ⊢
    split_ifs at h ⊢ with hc he ht hb
    · exact h
    · exact h
    · exact h
    · exact ih _ _ _ _ h
    · exact h

/-- More fuel than `CALC_TIMEOUT` does not change the outcome of the wait. -/
theorem wait_fuel_independent (w : World) (extra : Nat) :
    wait_loop (CALC_TIMEOUT + extra) CALC_TIMEOUT 0 w = calculator_wait_for_completion w := by
  obtain ⟨r, hr⟩ := wait_total w
  rw [hr]
  induction extra with
  | zero => exact hr
  | succ extra ih => exact wait_loop_fuel_succ _ _ _ _ _ ih

/-- The wait ends at poll `k` when the polls before `k` all show `busy_only` and
poll `k` either does not, or is the last one allowed. -/
theorem wait_ends_at_poll (w : World) (hreg : w.calculator_regs = true) (k : Nat)
    (hk1 : 1 ≤ k) (hk : k ≤ CALC_TIMEOUT)
    (hpre : ∀ j, j + 1 < k → busy_only (status_at w j) = true)
    (hlast : busy_only (status_at w (k - 1)) = false ∨ k = CALC_TIMEOUT) :
    ∃ r, calculator_wait_for_completion w = some r ∧ ends_at w CALC_TIMEOUT 0 k r := by
  obtain ⟨n, r, hr, hn1, hn2, hn3, hend⟩ := wait_run w hreg
  have hnk : n = k := by
    rcases Nat.lt_trichotomy n k with hlt | heq | hgt
    · exfalso
      have hb := hpre (n - 1) (by omega)
      rcases hend with ⟨h, _⟩ | ⟨_, herr, _⟩ | ⟨_, h, _⟩
      · rw [not_complete_of_busy_only _ hb] at h; exact absurd h (by decide)
      · rw [no_error_of_busy_only _ hb] at herr; exact absurd herr (by decide)
      · have : n = CALC_TIMEOUT := by exact_mod_cast h
        omega
    · exact heq
    · exfalso
      have hb := hn3 (k - 1) (by omega)
      rcases hlast with h | h
      · rw [hb] at h; exact absurd h (by decide)
      · omega
  subst hnk
  exact ⟨r, hr, hend⟩

theorem dump_segment (w : World) (level count : Nat) :
    ∃ d, (logger_register_dump w level count).trace = d ++ w.trace ∧ d.length ≤ count ∧
      (∀ e ∈ d, ∃ idx v, e = Event.read idx v) ∧
      no_status_read_after_error_code d = true := by
  unfold logger_register_dump
  split
  · exact ⟨[], rfl, Nat.zero_le _, by simp, rfl⟩
  · split
    · exact ⟨[], rfl, Nat.zero_le _, by simp, rfl⟩
    · obtain ⟨d, h1, h2, h3, h4⟩ := dump_from_segment count w 0
      refine ⟨d, h1, le_of_eq h2, ?_, h4⟩
      intro e he
      obtain ⟨idx, v, h, _⟩ := h3 e he
      exact ⟨idx, v, h⟩

theorem poll_trace_length (w : World) (n : Nat) :
    (poll_trace w n).length = n + w.trace.length := by
  obtain ⟨p, h1, h2, _⟩ := poll_trace_segment w n
  rw [h1, List.length_append, h2]

theorem status_at_late_hw (m j : Nat) :
    status_at (fresh_world (late_hw m)) j = if j < m then 1 else 4 := by
  have hl := poll_trace_length (fresh_world (late_hw m)) j
  show (if (poll_trace (fresh_world (late_hw m)) j).length < m then 1 else 4) % WORD = _
  rw [hl]
  simp only [fresh_world, List.length_nil, Nat.add_zero]
  split <;> rfl

theorem same_machine_refl (w : World) : same_machine w w := ⟨rfl, rfl, rfl, rfl⟩

theorem same_machine_trans {a b c : World} (h1 : same_machine a b) (h2 : same_machine b c) :
    same_machine a c :=
  ⟨h2.1.trans h1.1, h2.2.1.trans h1.2.1, h2.2.2.1.trans h1.2.2.1, h2.2.2.2.trans h1.2.2.2⟩

theorem same_machine_after_polls (w : World) (n : Nat) : same_machine w (after_polls w n) :=
  ⟨rfl, rfl, rfl, rfl⟩

theorem same_machine_load (w : World) (idx : Nat) : same_machine w (load w idx).2 :=
  ⟨rfl, rfl, rfl, rfl⟩

theorem same_machine_store (w : World) (idx v : Nat) : same_machine w (store w idx v) :=
  ⟨rfl, rfl, rfl, rfl⟩

theorem same_machine_read_reg (w : World) (offset : Nat) :
    same_machine w (calculator_read_reg w offset).2 := by
  unfold calculator_read_reg
  split
  · exact same_machine_refl w
  · split
    · exact same_machine_refl w
    · exact same_machine_load w _

theorem same_machine_write_reg (w : World) (offset value : Nat) :
    same_machine w (calculator_write_reg w offset value) := by
  unfold calculator_write_reg
  split
  · exact same_machine_refl w
  · split
    · exact same_machine_refl w
    · exact ⟨rfl, rfl, rfl, rfl⟩

theorem same_machine_dump_from (n : Nat) : ∀ (w : World) (i : Nat),
    same_machine w (dump_from w i n) := by
  induction n with
  | zero => intro w i; exact same_machine_refl w
  | succ n ih =>
    intro w i
    exact same_machine_trans (same_machine_load w i) (ih (load w i).2 (i + 1))

theorem same_machine_dump (w : World) (level count : Nat) :
    same_machine w (logger_register_dump w level count) := by
  unfold logger_register_dump
  split
  · exact same_machine_refl w
  · split
    · exact same_machine_refl w
    · exact same_machine_dump_from count w 0

theorem same_machine_write_command (w : World) (op a b : Nat) :
    same_machine w (write_command w op a b) :=
  same_machine_trans (same_machine_write_reg w _ _)
    (same_machine_trans (same_machine_write_reg _ _ _) (same_machine_write_reg _ _ _))

theorem poll_trace_succ (w : World) (n : Nat) :
    poll_trace w (n + 1) = Event.read 4 (status_at w n) :: poll_trace w n := rfl

theorem status_at_eq (w : World) (j : Nat) :
    status_at w j = w.hw (poll_trace w j) 4 % WORD := rfl

/-- Summary of a wait on an initialised driver: it returns, changes only the
history, and either succeeds after `n` polls, the last of which shows completion,
or fails after `n` polls, the last of which does not, having added only loads. -/
theorem wait_summary (w : World) (hreg : w.calculator_regs = true) :
    ∃ r, calculator_wait_for_completion w = some r ∧ same_machine w r.world ∧
      ( (r.ret = 0 ∧ ∃ n, 1 ≤ n ∧ r.world = after_polls w n ∧
            shows_complete (status_at w (n - 1)) = true)
      ∨ (r.ret = -1 ∧ ∃ n t, 1 ≤ n ∧ r.world.trace = t ++ poll_trace w n ∧ all_reads t ∧
            no_status_read_after_error_code t = true ∧
            shows_complete (status_at w (n - 1)) = false) ) := by
  obtain ⟨n, r, hr, hn1, _, _, hend⟩ := wait_run w hreg
  refine ⟨r, hr, ?_⟩
  rcases hend with ⟨hc, h⟩ | ⟨hc, _, h⟩ | ⟨hb, _, h⟩
  · subst h
    exact ⟨same_machine_after_polls w n, Or.inl ⟨rfl, n, hn1, rfl, hc⟩⟩
  · subst h
    refine ⟨same_machine_trans (same_machine_after_polls w n) (same_machine_read_reg _ _),
      Or.inr ⟨rfl, n, [Event.read 11 (w.hw (poll_trace w n) 11 % WORD)], hn1, ?_, ?_, ?_, hc⟩⟩
    · exact read_reg_trace (after_polls w n) CALC_REG_ERROR_CODE hreg (by decide)
    · intro e he
      exact ⟨_, _, List.mem_singleton.1 he⟩
    · rfl
  · subst h
    obtain ⟨d, hd, _, hall, hok⟩ := dump_segment (after_polls w n) LOG_LEVEL_ERROR 16
    exact ⟨same_machine_trans (same_machine_after_polls w n) (same_machine_dump _ _ _),
      Or.inr ⟨rfl, n, d, hn1, hd, hall, hok, not_complete_of_busy_only _ hb⟩⟩

/-! ## Facts on histories -/

theorem writes_of_append (a b : List Event) :
    writes_of (a ++ b) = writes_of b ++ writes_of a := by
  induction a with
  | nil => simp [writes_of]
  | cons e a ih =>
    cases e with
    | read i v => simpa [writes_of] using ih
    | write i v => simp [writes_of, ih]

theorem writes_of_all_reads (a : List Event) (h : all_reads a) : writes_of a = [] := by
  induction a with
  | nil => rfl
  | cons e a ih =>
    obtain ⟨i, v, he⟩ := h e (List.mem_cons_self _ _)
    subst he
    exact ih (fun e' he' => h e' (List.mem_cons_of_mem _ he'))

theorem all_reads_of_all_status_reads (p : List Event) (h : all_status_reads p) :
    all_reads p :=
  fun e he => (h e he).elim (fun v hv => ⟨4, v, hv⟩)

theorem all_reads_append {a b : List Event} (ha : all_reads a) (hb : all_reads b) :
    all_reads (a ++ b) := by
  intro e he
  rcases List.mem_append.1 he with h | h
  · exact ha e h
  · exact hb e h

theorem writes_follow_completion_append_reads (a b : List Event) (h : all_reads a) :
    writes_follow_completion (a ++ b) = writes_follow_completion b := by
  induction a with
  | nil => rfl
  | cons e a ih =>
    obtain ⟨i, v, he⟩ := h e (List.mem_cons_self _ _)
    subst he
    exact ih (fun e' he' => h e' (List.mem_cons_of_mem _ he'))

theorem writes_follow_completion_all_reads (a : List Event) (h : all_reads a) :
    writes_follow_completion a = true := by
  have := writes_follow_completion_append_reads a [] h
  rw [List.append_nil] at this
  rw [this]; rfl

theorem no_error_code_read_of_all_status_reads (p : List Event) (h : all_status_reads p) :
    p.any (is_read_of CALC_REG_ERROR_CODE) = false := by
  rw [List.any_eq_false]
  intro e he
  obtain ⟨v, hv⟩ := h e he
  subst hv
  simp [is_read_of, CALC_REG_ERROR_CODE]

theorem no_status_read_after_error_code_of_none (l : List Event)
    (h : l.any (is_read_of CALC_REG_ERROR_CODE) = false) :
    no_status_read_after_error_code l = true := by
  induction l with
  | nil => rfl
  | cons e l ih =>
    rw [List.any_cons, Bool.or_eq_false_iff] at h
    simp [no_status_read_after_error_code, h.2, ih h.2]

theorem poll_trace_add (w : World) (n j : Nat) :
    poll_trace (after_polls w n) j = poll_trace w (n + j) := by
  induction j with
  | zero => rfl
  | succ j ih =>
    show Event.read 4 ((after_polls w n).hw (poll_trace (after_polls w n) j) 4 % WORD)
        :: poll_trace (after_polls w n) j = _
    rw [ih]
    rfl

theorem status_at_add (w : World) (n j : Nat) :
    status_at (after_polls w n) j = status_at w (n + j) := by
  simp only [status_at, poll_trace_add]
  rfl

theorem after_polls_add (w : World) (n m : Nat) :
    after_polls (after_polls w n) m = after_polls w (n + m) := by
  show { after_polls w n with trace := poll_trace (after_polls w n) m } = _
  rw [poll_trace_add]
  rfl

theorem control_word_lt (op : Nat) :
    (1 <<< CALC_CTRL_START_BIT) ||| (op &&& CALC_CTRL_OP_MASK) < WORD := by
  have h1 : op &&& CALC_CTRL_OP_MASK < 2 ^ 32 :=
    lt_of_le_of_lt Nat.and_le_right (by decide)
  have h2 : (1 <<< CALC_CTRL_START_BIT) < 2 ^ 32 := by decide
  exact Nat.or_lt_two_pow h2 h1

/-- The nine accesses of the three `calculator_write_reg` calls, most recent first. -/
theorem write_command_trace (w : World) (hreg : w.calculator_regs = true)
    (op a b : Nat) :
    ∃ v1 v2 v3 v4 v5 v6, (write_command w op a b).trace =
      command_accesses op a b v1 v2 v3 v4 v5 v6 ++ w.trace := by
  have hr1 := (same_machine_write_reg w CALC_REG_OPERAND_A (a % WORD)).1
  have hr2 := (same_machine_write_reg (calculator_write_reg w CALC_REG_OPERAND_A (a % WORD))
    CALC_REG_OPERAND_B (b % WORD)).1
  rw [hr1] at hr2
  obtain ⟨v1, v2, h1⟩ := write_reg_trace w CALC_REG_OPERAND_A (a % WORD) hreg (by decide)
  obtain ⟨v3, v4, h2⟩ := write_reg_trace (calculator_write_reg w CALC_REG_OPERAND_A (a % WORD))
    CALC_REG_OPERAND_B (b % WORD) (hr1.trans hreg) (by decide)
  obtain ⟨v5, v6, h3⟩ := write_reg_trace
    (calculator_write_reg (calculator_write_reg w CALC_REG_OPERAND_A (a % WORD))
      CALC_REG_OPERAND_B (b % WORD))
    CALC_REG_CONTROL ((1 <<< CALC_CTRL_START_BIT) ||| (op &&& CALC_CTRL_OP_MASK))
    (hr2.trans hreg) (by decide)
  refine ⟨v1, v2, v3, v4, v5, v6, ?_⟩
  show (calculator_write_reg _ CALC_REG_CONTROL _).trace = _
  rw [h3, h2, h1, Nat.mod_eq_of_lt (control_word_lt op), Nat.mod_mod, Nat.mod_mod]
  rfl

/-! ## `calculator_perform_operation` -/

/-- Summary of the busy pre-check on an initialised driver.  It either lets the
call go on, after `n` STATUS loads of which the last shows completion, or makes it
return -1, the entry load having shown busy and only loads having been made. -/
theorem busy_pre_check_summary (w : World) (hreg : w.calculator_regs = true) :
    ∃ b w1, busy_pre_check w = some (b, w1) ∧ same_machine w w1 ∧
      ( (b = true ∧ ∃ n, 1 ≤ n ∧ w1 = after_polls w n ∧
            shows_complete (status_at w (n - 1)) = true)
      ∨ (b = false ∧ (status_of_word (status_at w 0)).busy = true ∧
          ∃ n t, 2 ≤ n ∧ w1.trace = t ++ poll_trace w n ∧ all_reads t ∧
            no_status_read_after_error_code t = true) ) := by
  unfold busy_pre_check
  simp only [get_status_init w hreg]
  cases hb : (status_of_word (status_at w 0)).busy with
  | false =>
    refine ⟨true, after_polls w 1, by simp, same_machine_after_polls w 1,
      Or.inl ⟨rfl, 1, le_refl 1, rfl, ?_⟩⟩
    simp [shows_complete, hb]
  | true =>
    obtain ⟨r, hr, hsm, hcase⟩ := wait_summary (after_polls w 1) hreg
    have hsm' : same_machine w r.world :=
      same_machine_trans (same_machine_after_polls w 1) hsm
    rcases hcase with ⟨h0, n, hn, hw, hc⟩ | ⟨h1, n, t, hn, htr, hall, hok, _⟩
    · refine ⟨true, r.world, by simp [hr, h0], hsm', Or.inl ⟨rfl, 1 + n, by omega, ?_, ?_⟩⟩
      · rw [hw, after_polls_add]
      · rw [status_at_add] at hc
        have : 1 + n - 1 = 1 + (n - 1) := by omega
        rw [this]; exact hc
    · refine ⟨false, r.world, by simp [hr, h1], hsm',
        Or.inr ⟨rfl, rfl, 1 + n, t, by omega, ?_, hall, hok⟩⟩
      rw [htr, poll_trace_add]

/-- Summary of the code after the busy pre-check on an initialised driver, with
`w3` the state after the three register writes: success after `n` polls and a clean
final status, failure on the final status check, or failure of the wait. -/
theorem after_busy_check_run (w : World) (hreg : w.calculator_regs = true)
    (op a b old : Nat) :
    ∃ r, perform_after_busy_check w op a b old = some r ∧ same_machine w r.world ∧
      ( (r.ret = 0 ∧ ∃ n, 1 ≤ n ∧
            shows_complete (status_at (write_command w op a b) (n - 1)) = true ∧
            (status_of_word (status_at (write_command w op a b) n)).error = false ∧
            r.result = some (w.hw (poll_trace (write_command w op a b) (n + 1)) 3 % WORD) ∧
            r.world.trace =
              Event.read 3 (w.hw (poll_trace (write_command w op a b) (n + 1)) 3 % WORD)
                :: poll_trace (write_command w op a b) (n + 1))
      ∨ (r.ret = -1 ∧ r.result = some old ∧ ∃ n, 1 ≤ n ∧
            shows_complete (status_at (write_command w op a b) (n - 1)) = true ∧
            (status_of_word (status_at (write_command w op a b) n)).error = true ∧
            r.world.trace =
              Event.read 11 (w.hw (poll_trace (write_command w op a b) (n + 1)) 11 % WORD)
                :: poll_trace (write_command w op a b) (n + 1))
      ∨ (r.ret = -1 ∧ r.result = some old ∧ ∃ n t e, 1 ≤ n ∧
            shows_complete (status_at (write_command w op a b) (n - 1)) = false ∧
            all_reads t ∧ no_status_read_after_error_code t = true ∧
            r.world.trace = Event.read 11 e :: (t ++ poll_trace (write_command w op a b) n)) )
    := by
  have hsm3 := same_machine_write_command w op a b
  have hreg3 : (write_command w op a b).calculator_regs = true := hsm3.1.trans hreg
  obtain ⟨rw, hrw, hsm, hcase⟩ := wait_summary (write_command w op a b) hreg3
  have hregw : rw.world.calculator_regs = true := hsm.1.trans hreg3
  have hhw : rw.world.hw = w.hw := hsm.2.2.2.trans hsm3.2.2.2
  unfold perform_after_busy_check
  simp only [hrw]
  rcases hcase with ⟨h0, n, hn, hw, hc⟩ | ⟨h1, n, t, hn, htr, hall, hok, hnc⟩
  · have hne : ¬ (rw.ret ≠ 0) := by simp [h0]
    rw [if_neg hne]
    simp only [get_status_init rw.world hregw]
    have hst : status_at rw.world 0 = status_at (write_command w op a b) n := by
      rw [hw, status_at_add]; rfl
    have hap : after_polls rw.world 1 = after_polls (write_command w op a b) (n + 1) := by
      rw [hw, after_polls_add]
    have hreg5 : (after_polls (write_command w op a b) (n + 1)).calculator_regs = true := hreg3
    rw [hst, hap]
    cases he : (status_of_word (status_at (write_command w op a b) n)).error with
    | true =>
      refine ⟨_, by rw [if_pos rfl], ?_, Or.inr (Or.inl ⟨rfl, rfl, n, hn, hc, he, ?_⟩)⟩
      · exact same_machine_trans hsm3 (same_machine_trans (same_machine_after_polls _ _)
          (same_machine_read_reg _ _))
      · show (calculator_read_reg _ CALC_REG_ERROR_CODE).2.trace = _
        rw [read_reg_trace _ CALC_REG_ERROR_CODE hreg5 (by decide)]
        show Event.read 11 ((write_command w op a b).hw _ 11 % WORD) :: _ = _
        rw [hsm3.2.2.2]; rfl
    | false =>
      rw [if_neg (by decide : ¬ (false = true))]
      have hload : calculator_read_reg (after_polls (write_command w op a b) (n + 1))
          CALC_REG_RESULT = load (after_polls (write_command w op a b) (n + 1)) 3 := by
        simp [calculator_read_reg, hreg5, CALC_REG_RESULT]
      refine ⟨_, rfl, ?_, Or.inl ⟨rfl, n, hn, hc, he, ?_, ?_⟩⟩
      · exact same_machine_trans hsm3 (same_machine_trans (same_machine_after_polls _ _)
          (same_machine_read_reg _ _))
      · show some (calculator_read_reg _ CALC_REG_RESULT).1 = _
        rw [hload]
        show some ((write_command w op a b).hw _ 3 % WORD) = _
        rw [hsm3.2.2.2]; rfl
      · show (calculator_read_reg _ CALC_REG_RESULT).2.trace = _
        rw [hload]
        show Event.read 3 ((write_command w op a b).hw _ 3 % WORD) :: _ = _
        rw [hsm3.2.2.2]; rfl
  · have hne : rw.ret ≠ 0 := by rw [h1]; decide
    rw [if_pos hne]
    refine ⟨_, rfl, ?_, Or.inr (Or.inr ⟨rfl, rfl, n, t,
      rw.world.hw rw.world.trace (CALC_REG_ERROR_CODE / 4) % WORD, hn, hnc, hall, hok, ?_⟩)⟩
    · exact same_machine_trans hsm3 (same_machine_trans hsm (same_machine_read_reg _ _))
    · show (calculator_read_reg rw.world CALC_REG_ERROR_CODE).2.trace = _
      rw [read_reg_trace _ CALC_REG_ERROR_CODE hregw (by decide), htr]
      rfl

theorem perform_valid (w : World) (hreg : w.calculator_regs = true) (op : Nat)
    (hop : op ≤ CALC_OP_DIV) (a b old : Nat) :
    calculator_perform_operation w op a b (some old) =
      match busy_pre_check w with
      | none => none
      | some (false, w1) => some { ret := -1, result := some old, world := w1 }
      | some (true, w1) => perform_after_busy_check w1 op a b old := by
  have h : ¬ op > CALC_OP_DIV := by omega
  simp [calculator_perform_operation, hreg, h]

/-- Shape of every execution of a valid call (driver initialised, `result` not
`NULL`, `op ≤ CALC_OP_DIV`).  Either the busy pre-check fails (loads only), or the
call adds, oldest first: STATUS loads `p1` ending with a word `v` that shows
completion, the nine accesses of the command, STATUS loads `p3`, and then one of
three endings. -/
theorem perform_valid_run (w : World) (hreg : w.calculator_regs = true) (op : Nat)
    (hop : op ≤ CALC_OP_DIV) (a b old : Nat) :
    ∃ r, calculator_perform_operation w op a b (some old) = some r ∧
      same_machine w r.world ∧
      ( (r.ret = -1 ∧ r.result = some old ∧
          (status_of_word (status_at w 0)).busy = true ∧
          busy_pre_check w = some (false, r.world) ∧
          ∃ t p, r.world.trace = t ++ p ++ w.trace ∧ all_reads t ∧
            no_status_read_after_error_code t = true ∧ all_status_reads p)
      ∨ ((∃ w1, busy_pre_check w = some (true, w1)) ∧
          ∃ v p1 v1 v2 v3 v4 v5 v6 X p3, shows_complete v = true ∧ all_status_reads p1 ∧
          all_status_reads p3 ∧
          r.world.trace = X ++ p3 ++ command_accesses op a b v1 v2 v3 v4 v5 v6
            ++ Event.read 4 v :: p1 ++ w.trace ∧
          ( (r.ret = 0 ∧ ∃ x s tr, X = [Event.read 3 x, Event.read 4 s] ∧
                r.result = some x ∧ (status_of_word s).error = false ∧
                s = w.hw tr 4 % WORD ∧ ∃ tr3, x = w.hw tr3 3 % WORD)
          ∨ (r.ret = -1 ∧ r.result = some old ∧ ∃ e s tr,
                X = [Event.read 11 e, Event.read 4 s] ∧
                (status_of_word s).error = true ∧ s = w.hw tr 4 % WORD)
          ∨ (r.ret = -1 ∧ r.result = some old ∧ ∃ e t, X = Event.read 11 e :: t ∧
                all_reads t ∧ no_status_read_after_error_code t = true ∧
                ∃ tr, shows_complete (w.hw tr 4 % WORD) = false) )) ) := by
  rw [perform_valid w hreg op hop]
  obtain ⟨bb, w1, hpc, hsm1, hcase⟩ := busy_pre_check_summary w hreg
  rw [hpc]
  rcases hcase with ⟨hb, n, hn, hw1, hc⟩ | ⟨hb, hbusy, n, t, hn, htr, hall, hok⟩
  · subst hb
    have hreg1 : w1.calculator_regs = true := hsm1.1.trans hreg
    obtain ⟨r, hr, hsm, hrun⟩ := after_busy_check_run w1 hreg1 op a b old
    obtain ⟨v1, v2, v3, v4, v5, v6, hW⟩ := write_command_trace w1 hreg1 op a b
    have hhw1 : w1.hw = w.hw := hsm1.2.2.2
    have hhw3 : (write_command w1 op a b).hw = w.hw :=
      (same_machine_write_command w1 op a b).2.2.2.trans hhw1
    -- the STATUS loads of the pre-check
    obtain ⟨m, hm⟩ : ∃ m, n = m + 1 := ⟨n - 1, by omega⟩
    subst hm
    obtain ⟨p1, hp1, _, hp1all⟩ := poll_trace_segment w m
    have hw1tr : w1.trace = Event.read 4 (status_at w m) :: p1 ++ w.trace := by
      rw [hw1]
      show poll_trace w (m + 1) = _
      rw [poll_trace_succ, hp1]; rfl
    have hc' : shows_complete (status_at w m) = true := hc
    refine ⟨r, hr, same_machine_trans hsm1 hsm, Or.inr ⟨⟨w1, rfl⟩, ?_⟩⟩
    refine ⟨status_at w m, p1, v1, v2, v3, v4, v5, v6, ?_⟩
    rcases hrun with ⟨h0, k, hk, _, he, hres, htr⟩ | ⟨h1, hres, k, hk, _, he, htr⟩
        | ⟨h1, hres, k, t, e, hk, hnc, hall, hok, htr⟩
    · obtain ⟨p3, hp3, _, hp3all⟩ := poll_trace_segment (write_command w1 op a b) k
      refine ⟨[Event.read 3 (w1.hw (poll_trace (write_command w1 op a b) (k + 1)) 3 % WORD),
          Event.read 4 (status_at (write_command w1 op a b) k)], p3,
        hc', hp1all, hp3all, ?_, Or.inl ⟨h0, _, _, poll_trace (write_command w1 op a b) k,
          rfl, hres, he, ?_, poll_trace (write_command w1 op a b) (k + 1), ?_⟩⟩
      · rw [htr, poll_trace_succ, hp3, hW, hw1tr]
        simp
      · rw [status_at_eq, hhw3]
      · rw [hhw1]
    · obtain ⟨p3, hp3, _, hp3all⟩ := poll_trace_segment (write_command w1 op a b) k
      refine ⟨[Event.read 11 (w1.hw (poll_trace (write_command w1 op a b) (k + 1)) 11 % WORD),
          Event.read 4 (status_at (write_command w1 op a b) k)], p3,
        hc', hp1all, hp3all, ?_, Or.inr (Or.inl ⟨h1, hres, _, _,
          poll_trace (write_command w1 op a b) k, rfl, he, ?_⟩)⟩
      · rw [htr, poll_trace_succ, hp3, hW, hw1tr]
        simp
      · rw [status_at_eq, hhw3]
    · obtain ⟨p3, hp3, _, hp3all⟩ := poll_trace_segment (write_command w1 op a b) k
      refine ⟨Event.read 11 e :: t, p3, hc', hp1all, hp3all, ?_,
        Or.inr (Or.inr ⟨h1, hres, e, t, rfl, hall, hok,
          poll_trace (write_command w1 op a b) (k - 1), ?_⟩)⟩
      · rw [htr, hp3, hW, hw1tr]
        simp
      · rw [← hhw3]; exact hnc
  · subst hb
    obtain ⟨p, hp, _, hpall⟩ := poll_trace_segment w n
    refine ⟨_, rfl, hsm1, Or.inl ⟨rfl, rfl, hbusy, rfl, t, p, ?_, hall, hok, hpall⟩⟩
    show w1.trace = _
    rw [htr, hp, List.append_assoc]

/-! ## Claims on the polling loop -/

/-- C1: against a transport whose every STATUS load shows busy set, done clear and
error clear, `calculator_wait_for_completion` returns -1 through the timeout
`return` with `poll_count = CALC_TIMEOUT = 1000000`: the history then holds exactly
1000000 loads of STATUS made by `calculator_get_status`, followed only by the
register dump of the timeout branch. -/
theorem wait_times_out_after_exactly_CALC_TIMEOUT_polls (w : World)
    (hreg : w.calculator_regs = true)
    (hbusy : ∀ tr, busy_only (w.hw tr 4 % WORD) = true) :
    calculator_wait_for_completion w = some
        { ret := -1, poll_count := 1000000, exit := .timed_out,
          world := logger_register_dump (after_polls w 1000000) LOG_LEVEL_ERROR 16 } ∧
      ∃ p, (after_polls w 1000000).trace = p ++ w.trace ∧ p.length = 1000000 ∧
        ∀ e ∈ p, ∃ v, e = Event.read 4 v := by
  refine ⟨?_, poll_trace_segment w 1000000⟩
  obtain ⟨r, hr, hend⟩ := wait_ends_at_poll w hreg CALC_TIMEOUT (by decide) (le_refl _)
    (fun j _ => hbusy _) (Or.inr rfl)
  have hb : busy_only (status_at w (CALC_TIMEOUT - 1)) = true := hbusy _
  rcases hend with ⟨h, _⟩ | ⟨_, h, _⟩ | ⟨_, _, h⟩
  · rw [not_complete_of_busy_only _ hb] at h; exact absurd h (by decide)
  · rw [no_error_of_busy_only _ hb] at h; exact absurd h (by decide)
  · rw [hr, h]; rfl

/-- Witness of C1: the device that always reads 1 (busy only). -/
theorem wait_times_out_after_exactly_CALC_TIMEOUT_polls_witness :
    (fresh_world (const_hw 1)).calculator_regs = true ∧
    busy_only (const_hw 1 [] 4 % WORD) = true ∧
    calculator_wait_for_completion (fresh_world (const_hw 1)) = some
        { ret := -1, poll_count := 1000000, exit := .timed_out,
          world := logger_register_dump (after_polls (fresh_world (const_hw 1)) 1000000)
            LOG_LEVEL_ERROR 16 } :=
  ⟨rfl, by decide,
    (wait_times_out_after_exactly_CALC_TIMEOUT_polls (fresh_world (const_hw 1)) rfl
      (fun _ => (by decide : busy_only (1 % WORD) = true))).1⟩

/-- C2, refuted as stated: a status word with the error bit set together with done
(6), or with busy clear (2), makes `calculator_wait_for_completion` return 0. -/
theorem wait_returns_zero_on_error_with_done_or_idle :
    (status_of_word 6).error = true ∧
    (calculator_wait_for_completion (fresh_world (const_hw 6))).map (fun r => r.ret) = some 0 ∧
    (status_of_word 2).error = true ∧
    (calculator_wait_for_completion (fresh_world (const_hw 2))).map (fun r => r.ret) = some 0 := by
  decide

/-- C2, amended: when the status word read at poll `k` has the error bit set while
busy is set and done is clear, `calculator_wait_for_completion` fails at that poll:
it returns -1 through the error `return`, and the only access after the `k`-th
STATUS load is one load of ERROR_CODE (word 11). -/
theorem wait_fails_at_error_poll_while_busy (w : World)
    (hreg : w.calculator_regs = true) (k : Nat) (hk1 : 1 ≤ k) (hk : k ≤ CALC_TIMEOUT)
    (hpre : ∀ j, j + 1 < k → busy_only (status_at w j) = true)
    (herr : (status_of_word (status_at w (k - 1))).error = true)
    (hbusy : (status_of_word (status_at w (k - 1))).busy = true)
    (hdone : (status_of_word (status_at w (k - 1))).done = false) :
    ∃ r, calculator_wait_for_completion w = some r ∧ r.ret = -1 ∧ r.poll_count = k ∧
      r.exit = .hw_error ∧
      r.world.trace = Event.read 11 (w.hw (poll_trace w k) 11 % WORD) :: poll_trace w k := by
  have hnb : busy_only (status_at w (k - 1)) = false := by
    simp [busy_only, herr]
  have hnc : shows_complete (status_at w (k - 1)) = false := by
    simp [shows_complete, hbusy, hdone]
  obtain ⟨r, hr, hend⟩ := wait_ends_at_poll w hreg k hk1 hk hpre (Or.inl hnb)
  rcases hend with ⟨h, _⟩ | ⟨_, _, h⟩ | ⟨h, _, _⟩
  · rw [hnc] at h; exact absurd h (by decide)
  · refine ⟨r, hr, by rw [h], by rw [h]; simp, by rw [h], ?_⟩
    rw [h]
    exact read_reg_trace (after_polls w k) CALC_REG_ERROR_CODE hreg (by decide)
  · rw [hnb] at h; exact absurd h (by decide)

/-- Witness of the amended C2: the device that always reads 3 (busy and error). -/
theorem wait_fails_at_error_poll_while_busy_witness :
    (status_of_word (status_at (fresh_world (const_hw 3)) 0)).error = true ∧
    ∃ r, calculator_wait_for_completion (fresh_world (const_hw 3)) = some r ∧ r.ret = -1 ∧
      r.poll_count = (1 : Nat) ∧ r.exit = .hw_error ∧
      r.world.trace = Event.read 11 ((fresh_world (const_hw 3)).hw
          (poll_trace (fresh_world (const_hw 3)) 1) 11 % WORD)
        :: poll_trace (fresh_world (const_hw 3)) 1 :=
  ⟨by decide,
    wait_fails_at_error_poll_while_busy (fresh_world (const_hw 3)) rfl 1 (by decide)
      (by decide) (fun j hj => absurd hj (by omega)) (by decide) (by decide) (by decide)⟩

/-- C3: if the first `k - 1` STATUS loads show busy only and the `k`-th shows done
set or busy clear, with `1 ≤ k ≤ CALC_TIMEOUT`, then
`calculator_wait_for_completion` returns 0 with `poll_count = k`, the history being
exactly `k` STATUS loads longer; the error bit of the `k`-th word plays no role, and
`k = CALC_TIMEOUT` is included. -/
theorem wait_succeeds_at_poll (w : World)
    (hreg : w.calculator_regs = true) (k : Nat) (hk1 : 1 ≤ k) (hk : k ≤ CALC_TIMEOUT)
    (hpre : ∀ j, j + 1 < k → busy_only (status_at w j) = true)
    (hlast : shows_complete (status_at w (k - 1)) = true) :
    calculator_wait_for_completion w = some
        { ret := 0, poll_count := k, exit := .completed, world := after_polls w k } := by
  have hnb : busy_only (status_at w (k - 1)) = false := by
    cases hb : busy_only (status_at w (k - 1)) with
    | false => rfl
    | true => rw [not_complete_of_busy_only _ hb] at hlast; exact absurd hlast (by decide)
  obtain ⟨r, hr, hend⟩ := wait_ends_at_poll w hreg k hk1 hk hpre (Or.inl hnb)
  rcases hend with ⟨_, h⟩ | ⟨h, _, _⟩ | ⟨h, _, _⟩
  · rw [hr, h]; simp
  · rw [hlast] at h; exact absurd h (by decide)
  · rw [hnb] at h; exact absurd h (by decide)

/-- Witness of C3 at the last allowed poll: the device shows busy for 999999 loads
and done at the 1000000th. -/
theorem wait_succeeds_at_poll_witness :
    shows_complete (status_at (fresh_world (late_hw 999999)) (1000000 - 1)) = true ∧
    calculator_wait_for_completion (fresh_world (late_hw 999999)) = some
        { ret := 0, poll_count := (1000000 : Nat), exit := .completed,
          world := after_polls (fresh_world (late_hw 999999)) 1000000 } :=
  ⟨by rw [status_at_late_hw]; decide,
    wait_succeeds_at_poll (fresh_world (late_hw 999999)) rfl 1000000 (by decide) (by decide)
      (fun j hj => by
        rw [status_at_late_hw, if_pos (by omega)]; decide)
      (by rw [status_at_late_hw]; decide)⟩

/-- C4: for every device behaviour and every state, `calculator_wait_for_completion`
returns, with `1 ≤ poll_count ≤ CALC_TIMEOUT`; the history grows by at most
`CALC_TIMEOUT + 16` loads. -/
theorem wait_terminates_within_CALC_TIMEOUT_polls (w : World) :
    ∃ r, calculator_wait_for_completion w = some r ∧
      1 ≤ r.poll_count ∧ r.poll_count ≤ 1000000 ∧
      r.world.trace.length ≤ w.trace.length + 1000000 + 16 := by
  cases hreg : w.calculator_regs with
  | false =>
    exact ⟨_, wait_uninitialised w hreg, by simp, by simp, by simp; omega⟩
  | true =>
    obtain ⟨n, r, hr, hn1, hn2, _, hend⟩ := wait_run w hreg
    have hn2' : n ≤ 1000000 := hn2
    have hpl := poll_trace_length w n
    refine ⟨r, hr, ?_⟩
    rcases hend with ⟨_, h⟩ | ⟨_, _, h⟩ | ⟨_, _, h⟩
    · subst h
      refine ⟨by simp; omega, by simp; omega, ?_⟩
      show (poll_trace w n).length ≤ _
      omega
    · subst h
      refine ⟨by simp; omega, by simp; omega, ?_⟩
      rw [read_reg_trace (after_polls w n) CALC_REG_ERROR_CODE hreg (by decide)]
      show (poll_trace w n).length + 1 ≤ _
      omega
    · subst h
      refine ⟨by simp; omega, by simp; omega, ?_⟩
      obtain ⟨d, hd, hl, _⟩ := dump_segment (after_polls w n) LOG_LEVEL_ERROR 16
      rw [hd, List.length_append]
      show d.length + (poll_trace w n).length ≤ _
      omega

/-! ## Claims on `calculator_perform_operation` -/

theorem perform_invalid (w : World) (op a b : Nat) (result : Option Nat)
    (h : w.calculator_regs = false ∨ result = none ∨ op > CALC_OP_DIV) :
    calculator_perform_operation w op a b result
      = some { ret := -1, result := result, world := w } := by
  unfold calculator_perform_operation
  by_cases hreg : w.calculator_regs = false
  · rw [if_pos hreg]
  · rw [if_neg hreg]
    cases result with
    | none => rfl
    | some old =>
      have hop : op > CALC_OP_DIV := by
        rcases h with h | h | h
        · exact absurd h hreg
        · exact absurd h (by simp)
        · exact h
      simp [hop]

theorem valid_or_invalid (w : World) (op : Nat) (result : Option Nat) :
    (w.calculator_regs = false ∨ result = none ∨ op > CALC_OP_DIV)
    ∨ (w.calculator_regs = true ∧ (∃ old, result = some old) ∧ op ≤ CALC_OP_DIV) := by
  cases hreg : w.calculator_regs with
  | false => exact Or.inl (Or.inl rfl)
  | true =>
    cases result with
    | none => exact Or.inl (Or.inr (Or.inl rfl))
    | some old =>
      by_cases hop : op > CALC_OP_DIV
      · exact Or.inl (Or.inr (Or.inr hop))
      · exact Or.inr ⟨rfl, ⟨old, rfl⟩, by omega⟩

theorem writes_of_command (op a b v1 v2 v3 v4 v5 v6 : Nat) :
    writes_of (command_accesses op a b v1 v2 v3 v4 v5 v6)
      = [(1, a % WORD), (2, b % WORD),
         (0, (1 <<< CALC_CTRL_START_BIT) ||| (op &&& CALC_CTRL_OP_MASK))] := by
  simp [command_accesses, writes_of]

/-- In the shape of `perform_valid_run`, the part after the command holds loads only. -/
theorem ending_all_reads (X : List Event) (r : OpResult) (old : Nat) (w : World)
    (hX : (r.ret = 0 ∧ ∃ x s tr, X = [Event.read 3 x, Event.read 4 s] ∧
                r.result = some x ∧ (status_of_word s).error = false ∧
                s = w.hw tr 4 % WORD ∧ ∃ tr3, x = w.hw tr3 3 % WORD)
          ∨ (r.ret = -1 ∧ r.result = some old ∧ ∃ e s tr,
                X = [Event.read 11 e, Event.read 4 s] ∧
                (status_of_word s).error = true ∧ s = w.hw tr 4 % WORD)
          ∨ (r.ret = -1 ∧ r.result = some old ∧ ∃ e t, X = Event.read 11 e :: t ∧
                all_reads t ∧ no_status_read_after_error_code t = true ∧
                ∃ tr, shows_complete (w.hw tr 4 % WORD) = false)) :
    all_reads X := by
  rcases hX with ⟨_, x, s, tr, hXe, _⟩ | ⟨_, _, e, s, tr, hXe, _⟩
      | ⟨_, _, e, t, hXe, hall, _⟩
  · subst hXe
    intro e' he'
    simp only [List.mem_cons, List.mem_singleton, List.not_mem_nil, or_false] at he'
    rcases he' with h | h
    · exact ⟨_, _, h⟩
    · exact ⟨_, _, h⟩
  · subst hXe
    intro e' he'
    simp only [List.mem_cons, List.mem_singleton, List.not_mem_nil, or_false] at he'
    rcases he' with h | h
    · exact ⟨_, _, h⟩
    · exact ⟨_, _, h⟩
  · subst hXe
    intro e' he'
    rcases List.mem_cons.1 he' with h | h
    · exact ⟨_, _, h⟩
    · exact hall e' h

/-- The stores of a valid call that gets past the busy pre-check. -/
theorem perform_past_pre_check_writes (w : World) (hreg : w.calculator_regs = true)
    (op : Nat) (hop : op ≤ CALC_OP_DIV) (a b old : Nat) (w1 : World)
    (hpast : busy_pre_check w = some (true, w1)) :
    ∃ r seg, calculator_perform_operation w op a b (some old) = some r ∧
      r.world.trace = seg ++ w.trace ∧
      writes_of seg = [(1, a % WORD), (2, b % WORD),
         (0, (1 <<< CALC_CTRL_START_BIT) ||| (op &&& CALC_CTRL_OP_MASK))] := by
  obtain ⟨r, hr, _, hcase⟩ := perform_valid_run w hreg op hop a b old
  rcases hcase with ⟨_, _, _, hpc, _⟩
      | ⟨_, v, p1, v1, v2, v3, v4, v5, v6, X, p3, hv, hp1, hp3, htr, hX⟩
  · rw [hpast] at hpc
    have := (Prod.mk.inj (Option.some.inj hpc)).1
    exact absurd this (by decide)
  · have hXreads := ending_all_reads X r old w hX
    refine ⟨r, (X ++ p3) ++ (command_accesses op a b v1 v2 v3 v4 v5 v6 ++ Event.read 4 v :: p1),
      hr, by rw [htr]; simp, ?_⟩
    rw [writes_of_append, writes_of_append, writes_of_command,
      writes_of_all_reads _ (all_reads_append hXreads (all_reads_of_all_status_reads p3 hp3))]
    have : writes_of (Event.read 4 v :: p1) = [] :=
      writes_of_all_reads _ (by
        intro e he
        rcases List.mem_cons.1 he with h | h
        · exact ⟨_, _, h⟩
        · exact all_reads_of_all_status_reads p1 hp1 e h)
    rw [this]
    rfl

theorem no_error_code_read_command (op a b v1 v2 v3 v4 v5 v6 : Nat) :
    (command_accesses op a b v1 v2 v3 v4 v5 v6).any (is_read_of CALC_REG_ERROR_CODE) = false := by
  simp [command_accesses, is_read_of, CALC_REG_ERROR_CODE]

theorem no_status_read_after_error_code_cons (e : Event) (l : List Event)
    (he : is_read_of CALC_REG_STATUS e = false) :
    no_status_read_after_error_code (e :: l) = no_status_read_after_error_code l := by
  simp [no_status_read_after_error_code, he]

theorem no_status_read_after_error_code_onto (t older : List Event)
    (ht : no_status_read_after_error_code t = true)
    (ho : older.any (is_read_of CALC_REG_ERROR_CODE) = false) :
    no_status_read_after_error_code (t ++ older) = true := by
  rw [no_status_read_after_error_code_append, ht,
    no_status_read_after_error_code_of_none older ho, ho]
  simp

/-- Loads of STATUS, then the command, then loads of STATUS: no load of ERROR_CODE. -/
theorem no_error_code_read_body (p3 p1 : List Event) (op a b v1 v2 v3 v4 v5 v6 v : Nat)
    (h3 : all_status_reads p3) (h1 : all_status_reads p1) :
    (p3 ++ command_accesses op a b v1 v2 v3 v4 v5 v6 ++ Event.read 4 v :: p1).any
      (is_read_of CALC_REG_ERROR_CODE) = false := by
  rw [List.any_append, List.any_append, List.any_cons,
    no_error_code_read_of_all_status_reads p3 h3, no_error_code_read_command,
    no_error_code_read_of_all_status_reads p1 h1]
  rfl

/-- C5: every call of `calculator_perform_operation` returns, and in the accesses
it adds to the history no load of STATUS comes after a load of ERROR_CODE; when
every STATUS load presents the error bit, the call returns -1. -/
theorem perform_never_polls_after_error_code (w : World) (op a b : Nat)
    (result : Option Nat) :
    ∃ r seg, calculator_perform_operation w op a b result = some r ∧
      r.world.trace = seg ++ w.trace ∧
      no_status_read_after_error_code seg = true ∧
      ((∀ tr, (status_of_word (w.hw tr 4 % WORD)).error = true) → r.ret = -1) := by
  rcases valid_or_invalid w op result with hinv | ⟨hreg, ⟨old, hres⟩, hop⟩
  · exact ⟨_, [], perform_invalid w op a b result hinv, rfl, rfl, fun _ => rfl⟩
  · subst hres
    obtain ⟨r, hr, _, hcase⟩ := perform_valid_run w hreg op hop a b old
    rcases hcase with ⟨hret, _, _, _, t, p, htr, _, hok, hp⟩
        | ⟨_, v, p1, v1, v2, v3, v4, v5, v6, X, p3, _, hp1, hp3, htr, hX⟩
    · refine ⟨r, t ++ p, hr, htr, ?_, fun _ => hret⟩
      exact no_status_read_after_error_code_onto t p hok
        (no_error_code_read_of_all_status_reads p hp)
    · have hbody := no_error_code_read_body p3 p1 op a b v1 v2 v3 v4 v5 v6 v hp3 hp1
      refine ⟨r, X ++ (p3 ++ command_accesses op a b v1 v2 v3 v4 v5 v6 ++ Event.read 4 v :: p1),
        hr, by rw [htr]; simp, ?_, ?_⟩
      · rcases hX with ⟨_, x, s, tr, hXe, _⟩ | ⟨_, _, e, s, tr, hXe, _⟩
            | ⟨_, _, e, t, hXe, _, hok, _⟩
        · subst hXe
          apply no_status_read_after_error_code_of_none
          rw [List.any_append, hbody]
          simp [is_read_of, CALC_REG_ERROR_CODE]
        · subst hXe
          show no_status_read_after_error_code (Event.read 11 e :: ([Event.read 4 s] ++ _)) = true
          rw [no_status_read_after_error_code_cons _ _ (by simp [is_read_of, CALC_REG_STATUS])]
          apply no_status_read_after_error_code_of_none
          rw [List.any_append, hbody]
          simp [is_read_of, CALC_REG_ERROR_CODE]
        · subst hXe
          show no_status_read_after_error_code (Event.read 11 e :: (t ++ _)) = true
          rw [no_status_read_after_error_code_cons _ _ (by simp [is_read_of, CALC_REG_STATUS])]
          exact no_status_read_after_error_code_onto t _ hok hbody
      · intro herr
        rcases hX with ⟨_, x, s, tr, _, _, hne, hs, _⟩ | ⟨h, _⟩ | ⟨h, _⟩
        · rw [hs, herr tr] at hne
          exact absurd hne (by decide)
        · exact h
        · exact h

/-- Witness of C5: a valid ADD against the device that always reads 3 (busy and
error) returns -1. -/
theorem perform_never_polls_after_error_code_witness :
    ∃ r seg, calculator_perform_operation (fresh_world (const_hw 3)) 0 0x3F800000 0x40000000
        (some 7) = some r ∧
      r.world.trace = seg ++ (fresh_world (const_hw 3)).trace ∧
      no_status_read_after_error_code seg = true ∧ r.ret = -1 := by
  obtain ⟨r, seg, h1, h2, h3, h4⟩ :=
    perform_never_polls_after_error_code (fresh_world (const_hw 3)) 0 0x3F800000 0x40000000
      (some 7)
  exact ⟨r, seg, h1, h2, h3,
    h4 (fun _ => (by decide : (status_of_word (3 % WORD)).error = true))⟩

theorem writes_follow_completion_command (op a b v1 v2 v3 v4 v5 v6 v : Nat)
    (p1 : List Event) (hv : shows_complete v = true) (h1 : all_status_reads p1) :
    writes_follow_completion
      (command_accesses op a b v1 v2 v3 v4 v5 v6 ++ Event.read 4 v :: p1) = true := by
  have hp1 := writes_follow_completion_all_reads p1 (all_reads_of_all_status_reads p1 h1)
  simp [command_accesses, writes_follow_completion, last_status_read, CALC_REG_STATUS,
    CALC_REG_CONTROL, CALC_REG_OPERAND_A, CALC_REG_OPERAND_B, hv, hp1]

/-- C6: every call of `calculator_perform_operation` returns, and in the accesses it
adds to the history every store to OPERAND_A, OPERAND_B or CONTROL comes after a
STATUS load, the most recent of which showed busy clear or done set.  When a valid
call finds busy set at entry it runs `calculator_wait_for_completion` from the state
after that load: if the wait fails the call returns -1 in the wait's final state with
no store added to the history, otherwise it goes on from the wait's final state. -/
theorem perform_writes_only_after_completion (w : World) (op a b : Nat)
    (result : Option Nat) :
    ∃ r seg, calculator_perform_operation w op a b result = some r ∧
      r.world.trace = seg ++ w.trace ∧
      writes_follow_completion seg = true ∧
      (∀ old, w.calculator_regs = true → result = some old → op ≤ CALC_OP_DIV →
        (status_of_word (status_at w 0)).busy = true →
        ∃ rw, calculator_wait_for_completion (after_polls w 1) = some rw ∧
          (rw.ret ≠ 0 → r.ret = -1 ∧ r.result = some old ∧ r.world = rw.world ∧
            writes_of r.world.trace = writes_of w.trace) ∧
          (rw.ret = 0 → perform_after_busy_check rw.world op a b old = some r)) := by
  rcases valid_or_invalid w op result with hinv | ⟨hreg, ⟨old, hres⟩, hop⟩
  · refine ⟨_, [], perform_invalid w op a b result hinv, rfl, rfl, ?_⟩
    intro old hreg hres hop _
    rcases hinv with h | h | h
    · rw [hreg] at h; exact absurd h (by decide)
    · rw [hres] at h; exact absurd h (by simp)
    · omega
  · subst hres
    obtain ⟨r, hr, _, hcase⟩ := perform_valid_run w hreg op hop a b old
    have hbusy_part : ∀ old', w.calculator_regs = true → some old = some old' →
        op ≤ CALC_OP_DIV → (status_of_word (status_at w 0)).busy = true →
        ∃ rw, calculator_wait_for_completion (after_polls w 1) = some rw ∧
          (rw.ret ≠ 0 → r.ret = -1 ∧ r.result = some old' ∧ r.world = rw.world ∧
            writes_of r.world.trace = writes_of w.trace) ∧
          (rw.ret = 0 → perform_after_busy_check rw.world op a b old' = some r) := by
      intro old' _ hold _ hbusy
      have hold' : old = old' := Option.some.inj hold
      subst hold'
      obtain ⟨rw, hrw, _, hwcase⟩ := wait_summary (after_polls w 1) hreg
      have hpc : busy_pre_check w
          = if rw.ret ≠ 0 then some (false, rw.world) else some (true, rw.world) := by
        unfold busy_pre_check
        simp only [get_status_init w hreg, hbusy, if_true, hrw]
      rw [perform_valid w hreg op hop, hpc] at hr
      refine ⟨rw, hrw, ?_, ?_⟩
      · intro hne
        rw [if_pos hne] at hr
        have hr' : r = { ret := -1, result := some old, world := rw.world } :=
          (Option.some.inj hr).symm
        subst hr'
        refine ⟨rfl, rfl, rfl, ?_⟩
        rcases hwcase with ⟨h0, _⟩ | ⟨_, n, t, _, htr, hall, _, _⟩
        · exact absurd h0 hne
        · obtain ⟨p, hp, _, hpall⟩ := poll_trace_segment (after_polls w 1) n
          show writes_of rw.world.trace = _
          rw [htr, hp, writes_of_append, writes_of_append, writes_of_all_reads t hall,
            writes_of_all_reads p (all_reads_of_all_status_reads p hpall)]
          show writes_of (poll_trace w 1) ++ [] ++ [] = _
          simp [poll_trace, writes_of]
      · intro h0
        rw [if_neg (by simp [h0])] at hr
        exact hr
    rcases hcase with ⟨_, _, _, _, t, p, htr, hall, _, hp⟩
        | ⟨_, v, p1, v1, v2, v3, v4, v5, v6, X, p3, hv, hp1, hp3, htr, hX⟩
    · refine ⟨r, t ++ p, hr, htr, ?_, hbusy_part⟩
      exact writes_follow_completion_all_reads _
        (all_reads_append hall (all_reads_of_all_status_reads p hp))
    · have hXreads : all_reads X := ending_all_reads X r old w hX
      refine ⟨r, (X ++ p3) ++ (command_accesses op a b v1 v2 v3 v4 v5 v6 ++ Event.read 4 v :: p1),
        hr, by rw [htr]; simp, ?_, hbusy_part⟩
      rw [writes_follow_completion_append_reads _ _
        (all_reads_append hXreads (all_reads_of_all_status_reads p3 hp3))]
      exact writes_follow_completion_command op a b v1 v2 v3 v4 v5 v6 v p1 hv hp1

/-- Witness of C6: the device shows busy at entry and done from the next load on;
the call waits, then goes on from the wait's final state. -/
theorem perform_writes_only_after_completion_witness :
    (status_of_word (status_at (fresh_world (late_hw 1)) 0)).busy = true ∧
    ∃ r seg, calculator_perform_operation (fresh_world (late_hw 1)) 0 0x3F800000 0x40000000
        (some 7) = some r ∧
      r.world.trace = seg ++ (fresh_world (late_hw 1)).trace ∧
      writes_follow_completion seg = true ∧
      ∃ rw, calculator_wait_for_completion (after_polls (fresh_world (late_hw 1)) 1) = some rw ∧
        (rw.ret ≠ 0 → r.ret = -1 ∧ r.result = some 7 ∧ r.world = rw.world ∧
          writes_of r.world.trace = writes_of (fresh_world (late_hw 1)).trace) ∧
        (rw.ret = 0 →
          perform_after_busy_check rw.world 0 0x3F800000 0x40000000 7 = some r) := by
  obtain ⟨r, seg, h1, h2, h3, h4⟩ :=
    perform_writes_only_after_completion (fresh_world (late_hw 1)) 0 0x3F800000 0x40000000
      (some 7)
  exact ⟨by decide, r, seg, h1, h2, h3, h4 7 rfl rfl (by decide) (by decide)⟩

/-- C7: a valid call (driver initialised, `result` not `NULL`, `op ≤ CALC_OP_DIV`)
that gets past the busy pre-check stores exactly three times: the bits of operand A
to OPERAND_A (word 1), then the bits of operand B to OPERAND_B (word 2), then the
control word to CONTROL (word 0), the CONTROL store being the last store of the call;
no other store is made. -/
theorem perform_writes_A_then_B_then_CONTROL (w : World) (hreg : w.calculator_regs = true)
    (op : Nat) (hop : op ≤ CALC_OP_DIV) (a b old : Nat) (w1 : World)
    (hpast : busy_pre_check w = some (true, w1)) :
    ∃ r seg, calculator_perform_operation w op a b (some old) = some r ∧
      r.world.trace = seg ++ w.trace ∧
      writes_of seg = [(CALC_REG_OPERAND_A / 4, a % WORD), (CALC_REG_OPERAND_B / 4, b % WORD),
        (CALC_REG_CONTROL / 4, (1 <<< CALC_CTRL_START_BIT) ||| (op &&& CALC_CTRL_OP_MASK))] :=
  perform_past_pre_check_writes w hreg op hop a b old w1 hpast

/-- Witness of C7: a valid ADD against the synchronous device. -/
theorem perform_writes_A_then_B_then_CONTROL_witness :
    busy_pre_check (fresh_world (sync_hw 0x40400000))
      = some (true, after_polls (fresh_world (sync_hw 0x40400000)) 1) ∧
    ∃ r seg, calculator_perform_operation (fresh_world (sync_hw 0x40400000)) 0
        0x3F800000 0x40000000 (some 7) = some r ∧
      r.world.trace = seg ++ (fresh_world (sync_hw 0x40400000)).trace ∧
      writes_of seg = [(CALC_REG_OPERAND_A / 4, 0x3F800000 % WORD),
        (CALC_REG_OPERAND_B / 4, 0x40000000 % WORD),
        (CALC_REG_CONTROL / 4, (1 <<< CALC_CTRL_START_BIT) ||| (0 &&& CALC_CTRL_OP_MASK))] :=
  ⟨rfl, perform_writes_A_then_B_then_CONTROL (fresh_world (sync_hw 0x40400000)) rfl 0
    (by decide) 0x3F800000 0x40000000 7 _ rfl⟩

theorem no_result_read_of_all_status_reads (p : List Event) (h : all_status_reads p) :
    p.any (is_read_of CALC_REG_RESULT) = false := by
  rw [List.any_eq_false]
  intro e he
  obtain ⟨v, hv⟩ := h e he
  subst hv
  simp [is_read_of, CALC_REG_RESULT]

/-- C8: in a valid call that got past the busy pre-check, if the wait after the
command succeeds and the STATUS load that follows has the error bit set, whatever
its other bits, the call returns -1 and leaves `*result` as it was; its last two
accesses are that STATUS load and a load of ERROR_CODE, and none of the accesses of
the call is a load of RESULT. -/
theorem perform_fails_on_error_after_wait (w : World) (hreg : w.calculator_regs = true)
    (op : Nat) (hop : op ≤ CALC_OP_DIV) (a b old : Nat) (w1 : World) (rw : WaitResult)
    (hpast : busy_pre_check w = some (true, w1))
    (hwait : calculator_wait_for_completion (write_command w1 op a b) = some rw)
    (hok : rw.ret = 0)
    (herr : (status_of_word (status_at rw.world 0)).error = true) :
    ∃ r seg e, calculator_perform_operation w op a b (some old) = some r ∧
      r.ret = -1 ∧ r.result = some old ∧
      r.world.trace
        = Event.read 11 e :: Event.read 4 (status_at rw.world 0) :: rw.world.trace ∧
      r.world.trace = seg ++ w.trace ∧
      seg.any (is_read_of CALC_REG_RESULT) = false := by
  obtain ⟨bb, w1', hpc, hsm1, hcase⟩ := busy_pre_check_summary w hreg
  rw [hpast] at hpc
  have hw1 : w1' = w1 := (Prod.mk.inj (Option.some.inj hpc)).2.symm
  have hbb : bb = true := (Prod.mk.inj (Option.some.inj hpc)).1.symm
  subst hw1 hbb
  have hreg1 : w1'.calculator_regs = true := hsm1.1.trans hreg
  rcases hcase with ⟨_, n, _, hw1n, _⟩ | ⟨h, _⟩
  swap
  · exact absurd h (by decide)
  have hsm3 := same_machine_write_command w1' op a b
  have hreg3 : (write_command w1' op a b).calculator_regs = true := hsm3.1.trans hreg1
  obtain ⟨rw', hrw', hsmw, hwcase⟩ := wait_summary (write_command w1' op a b) hreg3
  rw [hwait] at hrw'
  have hrw : rw' = rw := (Option.some.inj hrw').symm
  subst hrw
  have hregw : rw'.world.calculator_regs = true := hsmw.1.trans hreg3
  rcases hwcase with ⟨_, m, _, hwm, _⟩ | ⟨h1, _⟩
  swap
  · rw [hok] at h1; exact absurd h1 (by decide)
  have hne : ¬ (rw'.ret ≠ 0) := by simp [hok]
  have hrun : calculator_perform_operation w op a b (some old)
      = some { ret := -1, result := some old,
               world := (calculator_read_reg (after_polls rw'.world 1) CALC_REG_ERROR_CODE).2 } := by
    rw [perform_valid w hreg op hop, hpast]
    show perform_after_busy_check w1' op a b old = _
    unfold perform_after_busy_check
    simp only [hwait, if_neg hne, get_status_init rw'.world hregw, herr, if_true]
  have htr : (calculator_read_reg (after_polls rw'.world 1) CALC_REG_ERROR_CODE).2.trace
      = Event.read 11 (rw'.world.hw (poll_trace rw'.world 1) 11 % WORD)
          :: Event.read 4 (status_at rw'.world 0) :: rw'.world.trace :=
    read_reg_trace (after_polls rw'.world 1) CALC_REG_ERROR_CODE hregw (by decide)
  obtain ⟨p1, hp1, _, hp1all⟩ := poll_trace_segment w n
  obtain ⟨p3, hp3, _, hp3all⟩ := poll_trace_segment (write_command w1' op a b) m
  obtain ⟨v1, v2, v3, v4, v5, v6, hW⟩ := write_command_trace w1' hreg1 op a b
  have hrwtr : rw'.world.trace
      = p3 ++ command_accesses op a b v1 v2 v3 v4 v5 v6 ++ p1 ++ w.trace := by
    rw [hwm]
    show poll_trace (write_command w1' op a b) m = _
    rw [hp3, hW, hw1n]
    show _ ++ (_ ++ poll_trace w n) = _
    rw [hp1]
    simp
  refine ⟨_, Event.read 11 (rw'.world.hw (poll_trace rw'.world 1) 11 % WORD)
      :: Event.read 4 (status_at rw'.world 0)
      :: (p3 ++ command_accesses op a b v1 v2 v3 v4 v5 v6 ++ p1), _, hrun, rfl, rfl, htr,
    ?_, ?_⟩
  · show (calculator_read_reg (after_polls rw'.world 1) CALC_REG_ERROR_CODE).2.trace = _
    rw [htr, hrwtr]
    simp
  · rw [List.any_cons, List.any_cons, List.any_append, List.any_append,
      no_result_read_of_all_status_reads p3 hp3all,
      no_result_read_of_all_status_reads p1 hp1all]
    simp [command_accesses, is_read_of, CALC_REG_RESULT]

/-- Witness of C8: the device always reads 6 (done and error, not busy); the wait
succeeds at its first poll and the status check that follows fails the call. -/
theorem perform_fails_on_error_after_wait_witness :
    (status_of_word (status_at (after_polls (write_command
        (after_polls (fresh_world (const_hw 6)) 1) 0 0x3F800000 0x40000000) 1) 0)).error = true ∧
    ∃ r seg e, calculator_perform_operation (fresh_world (const_hw 6)) 0 0x3F800000 0x40000000
        (some 7) = some r ∧
      r.ret = -1 ∧ r.result = some 7 ∧
      r.world.trace
        = Event.read 11 e :: Event.read 4 (status_at (after_polls (write_command
            (after_polls (fresh_world (const_hw 6)) 1) 0 0x3F800000 0x40000000) 1) 0)
          :: (after_polls (write_command
            (after_polls (fresh_world (const_hw 6)) 1) 0 0x3F800000 0x40000000) 1).trace ∧
      r.world.trace = seg ++ (fresh_world (const_hw 6)).trace ∧
      seg.any (is_read_of CALC_REG_RESULT) = false :=
  ⟨by decide,
    perform_fails_on_error_after_wait (fresh_world (const_hw 6)) rfl 0 (by decide)
      0x3F800000 0x40000000 7 (after_polls (fresh_world (const_hw 6)) 1)
      { ret := 0, poll_count := 1, exit := .completed,
        world := after_polls (write_command
          (after_polls (fresh_world (const_hw 6)) 1) 0 0x3F800000 0x40000000) 1 }
      rfl rfl rfl (by decide)⟩

/-- C9: against a synchronous device (no STATUS load ever shows busy or error) whose
RESULT register holds the 32-bit word `v`, a valid call with any `op ≤ CALC_OP_DIV`
and any operands returns 0 and stores in `*result` exactly `v`, the word its last
access loaded from RESULT. -/
theorem perform_returns_RESULT_word (w : World) (hreg : w.calculator_regs = true)
    (op : Nat) (hop : op ≤ CALC_OP_DIV) (a b old v : Nat)
    (hidle : ∀ tr, (status_of_word (w.hw tr 4 % WORD)).busy = false ∧
      (status_of_word (w.hw tr 4 % WORD)).error = false)
    (hres : ∀ tr, w.hw tr 3 = v) (hv : v < WORD) :
    ∃ r tr', calculator_perform_operation w op a b (some old) = some r ∧
      r.ret = 0 ∧ r.result = some v ∧ r.world.trace = Event.read 3 v :: tr' := by
  obtain ⟨r, hr, _, hcase⟩ := perform_valid_run w hreg op hop a b old
  rcases hcase with ⟨_, _, hbusy, _⟩
      | ⟨_, s0, p1, v1, v2, v3, v4, v5, v6, X, p3, _, _, _, htr, hX⟩
  · rw [status_at_eq, (hidle _).1] at hbusy
    exact absurd hbusy (by decide)
  · rcases hX with ⟨h0, x, s, tr, hXe, hresult, _, _, tr3, hx⟩ | ⟨_, _, e, s, tr, _, he, hs⟩
        | ⟨_, _, e, t, _, _, _, tr, hnc⟩
    · have hxv : x = v := by rw [hx, hres, Nat.mod_eq_of_lt hv]
      subst hxv
      subst hXe
      exact ⟨r, _, hr, h0, hresult, by rw [htr]; rfl⟩
    · rw [hs, (hidle tr).2] at he
      exact absurd he (by decide)
    · have : shows_complete (w.hw tr 4 % WORD) = true := by
        simp [shows_complete, (hidle tr).1]
      rw [this] at hnc
      exact absurd hnc (by decide)

/-- Witness of C9: ADD with A = 0x3F800000 (1.0), B = 0x40000000 (2.0) against the
synchronous device whose RESULT register holds 0x40400000 (3.0). -/
theorem perform_returns_RESULT_word_witness :
    (0x40400000 : Nat) < WORD ∧
    ∃ r tr', calculator_perform_operation (fresh_world (sync_hw 0x40400000)) CALC_OP_ADD
        0x3F800000 0x40000000 (some 0) = some r ∧
      r.ret = 0 ∧ r.result = some 0x40400000 ∧
      r.world.trace = Event.read 3 0x40400000 :: tr' :=
  ⟨by decide,
    perform_returns_RESULT_word (fresh_world (sync_hw 0x40400000)) rfl CALC_OP_ADD (by decide)
      0x3F800000 0x40000000 0 0x40400000
      (fun _ => (by decide : (status_of_word (0 % WORD)).busy = false ∧
        (status_of_word (0 % WORD)).error = false))
      (fun _ => rfl) (by decide)⟩

/-- C10: in a valid call that gets past the busy pre-check, the only word stored to
OPERAND_A is the 32-bit storage pattern `a` of `operand_a` itself, and the only word
stored to OPERAND_B is the pattern `b` of `operand_b` itself, for all patterns below
`2^32`: the transfer is the identity on bit patterns. -/
theorem perform_writes_operand_bits (w : World) (hreg : w.calculator_regs = true)
    (op : Nat) (hop : op ≤ CALC_OP_DIV) (a b old : Nat) (w1 : World)
    (hpast : busy_pre_check w = some (true, w1)) (ha : a < WORD) (hb : b < WORD) :
    ∃ r seg, calculator_perform_operation w op a b (some old) = some r ∧
      r.world.trace = seg ++ w.trace ∧
      stores_to (CALC_REG_OPERAND_A / 4) seg = [a] ∧
      stores_to (CALC_REG_OPERAND_B / 4) seg = [b] := by
  obtain ⟨r, seg, h1, h2, h3⟩ := perform_past_pre_check_writes w hreg op hop a b old w1 hpast
  refine ⟨r, seg, h1, h2, ?_, ?_⟩
  · simp [stores_to, h3, CALC_REG_OPERAND_A, Nat.mod_eq_of_lt ha]
  · simp [stores_to, h3, CALC_REG_OPERAND_B, Nat.mod_eq_of_lt hb]

/-- Witness of C10: the patterns of -0.0 (0x80000000) and of a NaN with a payload
(0x7FC00001) reach the operand registers unchanged. -/
theorem perform_writes_operand_bits_witness :
    (0x80000000 : Nat) < WORD ∧ (0x7FC00001 : Nat) < WORD ∧
    ∃ r seg, calculator_perform_operation (fresh_world (sync_hw 0)) CALC_OP_MUL
        0x80000000 0x7FC00001 (some 0) = some r ∧
      r.world.trace = seg ++ (fresh_world (sync_hw 0)).trace ∧
      stores_to (CALC_REG_OPERAND_A / 4) seg = [0x80000000] ∧
      stores_to (CALC_REG_OPERAND_B / 4) seg = [0x7FC00001] :=
  ⟨by decide, by decide,
    perform_writes_operand_bits (fresh_world (sync_hw 0)) rfl CALC_OP_MUL (by decide)
      0x80000000 0x7FC00001 0 (after_polls (fresh_world (sync_hw 0)) 1) rfl
      (by decide) (by decide)⟩

/-! ## Control word and rejected calls -/

theorem control_word_eq (op : Nat) (hop : op ≤ 14) : control_word op = 0x80000000 + op := by
  unfold control_word CALC_CTRL_START_BIT CALC_CTRL_OP_MASK
  interval_cases op <;> decide

/-- C11: for every opcode `op` of the enumeration (0..14) the control word
`(1 << 31) | (op & 0xF)` is `0x80000000 + op`: bit 31 is set, bits 30..4 are clear,
bits 3..0 decode to `op`, and two opcodes with the same control word are equal; for
the opcodes `calculator_perform_operation` accepts, a call that gets past the busy
pre-check stores exactly the word `0x80000000 + op` to CONTROL. -/
theorem control_word_encoding (op : Nat) (hop : op ≤ 14) :
    control_word op = 0x80000000 + op ∧
    (control_word op).testBit 31 = true ∧
    (∀ i, 4 ≤ i → i < 31 → (control_word op).testBit i = false) ∧
    control_word op &&& CALC_CTRL_OP_MASK = op ∧
    (∀ op', op' ≤ 14 → control_word op' = control_word op → op' = op) ∧
    (op ≤ CALC_OP_DIV → ∀ (w w1 : World) (a b old : Nat), w.calculator_regs = true →
      busy_pre_check w = some (true, w1) →
      ∃ r seg, calculator_perform_operation w op a b (some old) = some r ∧
        r.world.trace = seg ++ w.trace ∧
        stores_to (CALC_REG_CONTROL / 4) seg = [0x80000000 + op]) := by
  have heq := control_word_eq op hop
  have hlt : op < 2 ^ 4 := by omega
  refine ⟨heq, ?_, ?_, ?_, ?_, ?_⟩
  · rw [heq]
    show (2 ^ 31 + op).testBit 31 = true
    rw [Nat.testBit_two_pow_add_eq,
      Nat.testBit_lt_two_pow (lt_of_lt_of_le hlt (Nat.pow_le_pow_right (by decide) (by decide)))]
    rfl
  · intro i h4 h31
    rw [heq]
    show (2 ^ 31 + op).testBit i = false
    rw [Nat.testBit_two_pow_add_gt h31]
    exact Nat.testBit_lt_two_pow (lt_of_lt_of_le hlt (Nat.pow_le_pow_right (by decide) h4))
  · rw [heq]
    unfold CALC_CTRL_OP_MASK
    interval_cases op <;> decide
  · intro op' hop' h
    rw [heq, control_word_eq op' hop'] at h
    omega
  · intro hdiv w w1 a b old hreg hpast
    obtain ⟨r, seg, h1, h2, h3⟩ := perform_past_pre_check_writes w hreg op hdiv a b old w1 hpast
    refine ⟨r, seg, h1, h2, ?_⟩
    have hc : (1 <<< CALC_CTRL_START_BIT) ||| (op &&& CALC_CTRL_OP_MASK) = 0x80000000 + op := heq
    simp [stores_to, h3, CALC_REG_CONTROL, hc]

/-- Witness of C11: DIV (3), whose control word 0x80000003 a valid call against the
synchronous device stores to CONTROL. -/
theorem control_word_encoding_witness :
    control_word 3 = 0x80000003 ∧
    ∃ r seg, calculator_perform_operation (fresh_world (sync_hw 0)) 3 0x3F800000 0x40000000
        (some 0) = some r ∧
      r.world.trace = seg ++ (fresh_world (sync_hw 0)).trace ∧
      stores_to (CALC_REG_CONTROL / 4) seg = [0x80000000 + 3] :=
  ⟨(control_word_encoding 3 (by decide)).1,
    (control_word_encoding 3 (by decide)).2.2.2.2.2 (by decide) (fresh_world (sync_hw 0))
      (after_polls (fresh_world (sync_hw 0)) 1) 0x3F800000 0x40000000 0 rfl rfl⟩

/-- C12: for every operation code greater than `CALC_OP_DIV`, whatever the state,
the operands and the `result` pointer, `calculator_perform_operation` returns -1 with
the state, history included, exactly as it was: no load, no store, and `*result`
untouched. -/
theorem perform_rejects_invalid_op (w : World) (op a b : Nat) (result : Option Nat)
    (hop : op > CALC_OP_DIV) :
    calculator_perform_operation w op a b result
      = some { ret := -1, result := result, world := w } :=
  perform_invalid w op a b result (Or.inr (Or.inr hop))

/-- Witness of C12: opcode 4 (SMA, inside the enumeration) against an initialised
driver. -/
theorem perform_rejects_invalid_op_witness :
    (4 : Nat) > CALC_OP_DIV ∧
    calculator_perform_operation (fresh_world (sync_hw 0)) 4 0x3F800000 0x40000000 (some 7)
      = some { ret := -1, result := some 7, world := fresh_world (sync_hw 0) } :=
  ⟨by decide,
    perform_rejects_invalid_op (fresh_world (sync_hw 0)) 4 0x3F800000 0x40000000 (some 7)
      (by decide)⟩

/-! ## Uninitialised driver -/

theorem not_initialised_regs (d : Driver) (h : not_initialised d) :
    d.world.calculator_regs = false := by
  rcases h with h | ⟨d0, o, m, hf, hfail, rfl⟩ | ⟨d0, rfl⟩
  · exact h.2.2
  · by_cases h1 : o = -1
    · simp only [calculator_init, h1, if_true]
      exact hf.2.2
    · cases m with
      | false =>
        simp only [calculator_init, h1, if_false, Bool.false_eq_true, if_true]
        exact hf.2.2
      | true =>
        exfalso
        apply hfail
        simp [calculator_init, h1]
  · rfl

theorem read_reg_uninitialised (w : World) (h : w.calculator_regs = false) (offset : Nat) :
    calculator_read_reg w offset = (0, w) := by
  simp [calculator_read_reg, h]

theorem write_reg_uninitialised (w : World) (h : w.calculator_regs = false)
    (offset value : Nat) : calculator_write_reg w offset value = w := by
  simp [calculator_write_reg, h]

/-- C13: when the driver is not initialised (initial values of its variables, after
a failed `calculator_init` from those, or after `calculator_cleanup`),
`calculator_perform_operation` returns -1 for every opcode, operands and `result`
pointer with the state, history included, exactly as it was and `*result` untouched;
`calculator_write_reg` leaves the state as it was and `calculator_read_reg` returns 0
with the state as it was. -/
theorem perform_rejects_uninitialised (d : Driver) (h : not_initialised d)
    (op a b offset value : Nat) (result : Option Nat) :
    calculator_perform_operation d.world op a b result
        = some { ret := -1, result := result, world := d.world } ∧
      calculator_write_reg d.world offset value = d.world ∧
      calculator_read_reg d.world offset = (0, d.world) :=
  ⟨perform_invalid d.world op a b result (Or.inl (not_initialised_regs d h)),
    write_reg_uninitialised d.world (not_initialised_regs d h) offset value,
    read_reg_uninitialised d.world (not_initialised_regs d h) offset⟩

/-- Witness of C13: the driver is initialised with success, then cleaned up. -/
theorem perform_rejects_uninitialised_witness :
    (calculator_init (fresh_driver (sync_hw 0)) 3 true).1 = 0 ∧
    not_initialised (calculator_cleanup (calculator_init (fresh_driver (sync_hw 0)) 3 true).2) ∧
    calculator_perform_operation
        (calculator_cleanup (calculator_init (fresh_driver (sync_hw 0)) 3 true).2).world
        0 0x3F800000 0x40000000 (some 7)
      = some { ret := -1, result := some 7,
               world := (calculator_cleanup
                 (calculator_init (fresh_driver (sync_hw 0)) 3 true).2).world } :=
  ⟨by decide, Or.inr (Or.inr ⟨_, rfl⟩),
    (perform_rejects_uninitialised
      (calculator_cleanup (calculator_init (fresh_driver (sync_hw 0)) 3 true).2)
      (Or.inr (Or.inr ⟨_, rfl⟩)) 0 0x3F800000 0x40000000 0 0 (some 7)).1⟩

/-- C14, the code at the failing inputs: before `calculator_init`, and after
`calculator_cleanup` of an initialised driver, `calculator_wait_for_completion`
returns 0 through the success `return` after one call of `calculator_get_status`,
with no access to the device, although the device would show busy. -/
theorem wait_on_uninitialised_driver_returns_zero :
    calculator_wait_for_completion (fresh_driver (const_hw 1)).world
      = some { ret := 0, poll_count := 1, exit := .completed,
               world := (fresh_driver (const_hw 1)).world } ∧
    (calculator_init (fresh_driver (const_hw 1)) 3 true).1 = 0 ∧
    calculator_wait_for_completion
        (calculator_cleanup (calculator_init (fresh_driver (const_hw 1)) 3 true).2).world
      = some { ret := 0, poll_count := 1, exit := .completed,
               world := (calculator_cleanup
                 (calculator_init (fresh_driver (const_hw 1)) 3 true).2).world } :=
  ⟨wait_uninitialised _ rfl, by decide, wait_uninitialised _ rfl⟩

/-! ## What a failure tells the caller -/

/-- Against a device whose every STATUS load shows busy only, the busy pre-check of a
call fails. -/
theorem busy_pre_check_all_busy (w : World) (hreg : w.calculator_regs = true)
    (hbusy : ∀ tr, busy_only (w.hw tr 4 % WORD) = true) :
    ∃ w1, busy_pre_check w = some (false, w1) := by
  obtain ⟨bb, w1, hpc, _, hcase⟩ := busy_pre_check_summary w hreg
  rcases hcase with ⟨_, n, _, _, hc⟩ | ⟨hb, _⟩
  · have := not_complete_of_busy_only _ (hbusy (poll_trace w (n - 1)))
    rw [status_at_eq, this] at hc
    exact absurd hc (by decide)
  · subst hb
    exact ⟨w1, hpc⟩

theorem perform_all_busy (w : World) (hreg : w.calculator_regs = true) (op : Nat)
    (hop : op ≤ CALC_OP_DIV) (a b old : Nat)
    (hbusy : ∀ tr, busy_only (w.hw tr 4 % WORD) = true) :
    ∃ r, calculator_perform_operation w op a b (some old) = some r ∧
      r.ret = -1 ∧ r.result = some old := by
  obtain ⟨w1, hpc⟩ := busy_pre_check_all_busy w hreg hbusy
  exact ⟨_, by rw [perform_valid w hreg op hop, hpc], rfl, rfl⟩

/-- Every call returns 0 or -1, and a call that returns -1 leaves `*result` as it
was. -/
theorem perform_ret_and_result (w : World) (op a b : Nat) (result : Option Nat) :
    ∃ r, calculator_perform_operation w op a b result = some r ∧
      (r.ret = 0 ∨ r.ret = -1) ∧ (r.ret = -1 → r.result = result) := by
  rcases valid_or_invalid w op result with hinv | ⟨hreg, ⟨old, hres⟩, hop⟩
  · exact ⟨_, perform_invalid w op a b result hinv, Or.inr rfl, fun _ => rfl⟩
  · subst hres
    obtain ⟨r, hr, _, hcase⟩ := perform_valid_run w hreg op hop a b old
    refine ⟨r, hr, ?_⟩
    rcases hcase with ⟨h, hres, _⟩ | ⟨_, _, _, _, _, _, _, _, _, _, _, _, _, _, _, hX⟩
    · exact ⟨Or.inr h, fun _ => hres⟩
    · rcases hX with ⟨h0, _⟩ | ⟨h, hres, _⟩ | ⟨h, hres, _⟩
      · exact ⟨Or.inl h0, fun h1 => by rw [h0] at h1; exact absurd h1 (by decide)⟩
      · exact ⟨Or.inr h, fun _ => hres⟩
      · exact ⟨Or.inr h, fun _ => hres⟩

/-- C15, refuted as stated: two runs against devices that differ only in the value
of ERROR_CODE (1 and 2), both failing on the hardware error flag after having loaded
that value, deliver the same return value and the same `*result` to the caller; and
so does a run that times out. -/
theorem perform_hides_error_code :
    (calculator_perform_operation (fresh_world (error_hw 1)) CALC_OP_DIV 0x3F800000 0 (some 7)).map
        (fun r => (r.ret, r.result, r.world.trace.head?))
      = some (-1, some 7, some (Event.read 11 1)) ∧
    (calculator_perform_operation (fresh_world (error_hw 2)) CALC_OP_DIV 0x3F800000 0 (some 7)).map
        (fun r => (r.ret, r.result, r.world.trace.head?))
      = some (-1, some 7, some (Event.read 11 2)) ∧
    ∃ r, calculator_perform_operation (fresh_world (const_hw 1)) CALC_OP_DIV 0x3F800000 0
        (some 7) = some r ∧ r.ret = -1 ∧ r.result = some 7 :=
  ⟨by decide, by decide,
    perform_all_busy (fresh_world (const_hw 1)) rfl CALC_OP_DIV (by decide) 0x3F800000 0 7
      (fun _ => (by decide : busy_only (1 % WORD) = true))⟩

/-- C15, amended: every call of `calculator_perform_operation` returns 0 or -1, and
every call that fails returns -1 with `*result` as it was: the caller receives the
same value after a hardware error, whatever ERROR_CODE held, as after a timeout. -/
theorem perform_failure_carries_no_code (w : World) (op a b : Nat) (result : Option Nat) :
    ∃ r, calculator_perform_operation w op a b result = some r ∧
      (r.ret = 0 ∨ r.ret = -1) ∧ (r.ret ≠ 0 → r.ret = -1 ∧ r.result = result) := by
  obtain ⟨r, hr, h1, h2⟩ := perform_ret_and_result w op a b result
  refine ⟨r, hr, h1, fun hne => ?_⟩
  rcases h1 with h | h
  · exact absurd h hne
  · exact ⟨h, h2 h⟩

/-- C16, refuted as stated: against the device that always reads 3 (busy and error)
`calculator_wait_for_completion` returns -1 after one status poll, through the error
`return`, not the timeout one. -/
theorem wait_fails_before_timeout :
    (calculator_wait_for_completion (fresh_world (const_hw 3))).map
        (fun r => (r.ret, r.poll_count, r.exit))
      = some (-1, 1, WaitExit.hw_error) := by
  decide

/-- C16, amended: whenever `calculator_wait_for_completion` returns -1, none of its
`poll_count` status polls showed completion, and either it took the timeout `return`
after `CALC_TIMEOUT` polls or it took the error `return` at a poll whose status word
has the error bit set. -/
theorem wait_fails_only_on_timeout_or_error (w : World) (r : WaitResult)
    (hr : calculator_wait_for_completion w = some r) (hret : r.ret = -1) :
    ∃ n : Nat, r.poll_count = n ∧ 1 ≤ n ∧
      (∀ j, j < n → shows_complete (status_at w j) = false) ∧
      ((r.exit = .timed_out ∧ n = CALC_TIMEOUT)
        ∨ (r.exit = .hw_error ∧ (status_of_word (status_at w (n - 1))).error = true)) := by
  cases hreg : w.calculator_regs with
  | false =>
    rw [wait_uninitialised w hreg] at hr
    have := Option.some.inj hr
    subst this
    exact absurd (show (0 : Int) = -1 from hret) (by decide)
  | true =>
    obtain ⟨n, r', hr', hn1, _, hpre, hend⟩ := wait_run w hreg
    rw [hr] at hr'
    have := Option.some.inj hr'
    subst this
    have hall : shows_complete (status_at w (n - 1)) = false →
        ∀ j, j < n → shows_complete (status_at w j) = false := by
      intro hlast j hj
      by_cases hjn : j + 1 < n
      · exact not_complete_of_busy_only _ (hpre j hjn)
      · have : j = n - 1 := by omega
        rw [this]; exact hlast
    rcases hend with ⟨_, h⟩ | ⟨hc, he, h⟩ | ⟨hb, hn, h⟩
    · rw [h] at hret; exact absurd (show (0 : Int) = -1 from hret) (by decide)
    · exact ⟨n, by rw [h]; simp, hn1, hall hc, Or.inr ⟨by rw [h], he⟩⟩
    · exact ⟨n, by rw [h]; simp, hn1, hall (not_complete_of_busy_only _ hb),
        Or.inl ⟨by rw [h], by exact_mod_cast hn⟩⟩

/-- Witness of the amended C16: the device that always reads 3 (busy and error); the
wait fails at its first poll through the error `return`. -/
theorem wait_fails_only_on_timeout_or_error_witness :
    calculator_wait_for_completion (fresh_world (const_hw 3))
      = some { ret := -1, poll_count := 1, exit := .hw_error,
               world := (calculator_read_reg (after_polls (fresh_world (const_hw 3)) 1)
                 CALC_REG_ERROR_CODE).2 } ∧
    ∃ n : Nat, (1 : Int) = n ∧ 1 ≤ n ∧
      (∀ j, j < n → shows_complete (status_at (fresh_world (const_hw 3)) j) = false) ∧
      ((WaitExit.hw_error = WaitExit.timed_out ∧ n = CALC_TIMEOUT)
        ∨ (WaitExit.hw_error = WaitExit.hw_error ∧
            (status_of_word (status_at (fresh_world (const_hw 3)) (n - 1))).error = true)) :=
  ⟨rfl,
    wait_fails_only_on_timeout_or_error (fresh_world (const_hw 3))
      { ret := -1, poll_count := 1, exit := .hw_error,
        world := (calculator_read_reg (after_polls (fresh_world (const_hw 3)) 1)
          CALC_REG_ERROR_CODE).2 }
      rfl rfl⟩

/-! ## Register access -/

theorem write_reg_out_of_range (w : World) (offset value : Nat) (h : offset > 0x3C) :
    calculator_write_reg w offset value = w := by
  simp [calculator_write_reg, h]

theorem read_reg_out_of_range (w : World) (offset : Nat) (h : offset > 0x3C) :
    calculator_read_reg w offset = (0, w) := by
  simp [calculator_read_reg, h]

/-- C17: on an initialised driver `calculator_write_reg(offset, v)` adds the store of
`v` to word `offset / 4` to the history when `offset ≤ 0x3C`, 0x3C included, and adds
no store otherwise; for `offset > 0x3C` it leaves the state, history included, exactly
as it was, and `calculator_read_reg(offset)` returns 0 with the state exactly as it
was. -/
theorem reg_range_validation (w : World) (hreg : w.calculator_regs = true)
    (offset v : Nat) :
    writes_of (calculator_write_reg w offset v).trace
        = (if offset ≤ 0x3C then writes_of w.trace ++ [(offset / 4, v % WORD)]
           else writes_of w.trace) ∧
      (offset > 0x3C → calculator_write_reg w offset v = w) ∧
      (offset > 0x3C → calculator_read_reg w offset = (0, w)) := by
  refine ⟨?_, write_reg_out_of_range w offset v, read_reg_out_of_range w offset⟩
  by_cases h : offset ≤ 0x3C
  · obtain ⟨v1, v2, htr⟩ := write_reg_trace w offset v hreg h
    rw [if_pos h, htr]
    simp [writes_of]
  · rw [if_neg h, write_reg_out_of_range w offset v (by omega)]

/-- Witness of C17: offset 0x3C is accepted, offset 0x40 is rejected. -/
theorem reg_range_validation_witness :
    writes_of (calculator_write_reg (fresh_world (sync_hw 0)) 0x3C 7).trace = [(15, 7)] ∧
    calculator_write_reg (fresh_world (sync_hw 0)) 0x40 7 = fresh_world (sync_hw 0) ∧
    calculator_read_reg (fresh_world (sync_hw 0)) 0x40 = (0, fresh_world (sync_hw 0)) :=
  ⟨(reg_range_validation (fresh_world (sync_hw 0)) rfl 0x3C 7).1,
    (reg_range_validation (fresh_world (sync_hw 0)) rfl 0x40 7).2.1 (by decide),
    (reg_range_validation (fresh_world (sync_hw 0)) rfl 0x40 7).2.2 (by decide)⟩

/-- C18: on an initialised driver whose registers behave as plain memory, for every
`offset ≤ 0x3C` and every 32-bit value `v`, `calculator_write_reg(offset, v)` followed
by `calculator_read_reg(offset)` returns `v`. -/
theorem reg_round_trip (w : World) (init : Nat → Nat) (hreg : w.calculator_regs = true)
    (hplain : w.hw = plain_hw init) (offset v : Nat) (hoff : offset ≤ 0x3C)
    (hv : v < WORD) :
    (calculator_read_reg (calculator_write_reg w offset v) offset).1 = v := by
  have hsm := same_machine_write_reg w offset v
  obtain ⟨v1, v2, htr⟩ := write_reg_trace w offset v hreg hoff
  have hno : ¬ offset > 0x3C := by omega
  have hreg' : (calculator_write_reg w offset v).calculator_regs = true := hsm.1.trans hreg
  unfold calculator_read_reg
  rw [if_neg (by simp [hreg']), if_neg hno]
  show (calculator_write_reg w offset v).hw (calculator_write_reg w offset v).trace
    (offset / 4) % WORD = v
  rw [hsm.2.2.2, hplain, htr]
  simp [plain_hw, Nat.mod_eq_of_lt hv]

/-- Witness of C18: BUFFER_CTRL (0x18) on plain memory, with all 32 bits set. -/
theorem reg_round_trip_witness :
    (0xFFFFFFFF : Nat) < WORD ∧
    (calculator_read_reg
      (calculator_write_reg (fresh_world (plain_hw (fun _ => 0))) 0x18 0xFFFFFFFF) 0x18).1
      = 0xFFFFFFFF :=
  ⟨by decide,
    reg_round_trip (fresh_world (plain_hw (fun _ => 0))) (fun _ => 0) rfl rfl 0x18 0xFFFFFFFF
      (by decide) (by decide)⟩

theorem status_of_word_bits (s : Nat) :
    status_of_word s = { busy := s.testBit 0, error := s.testBit 1, done := s.testBit 2 } := by
  have h0 := Nat.and_two_pow s 0
  have h1 := Nat.and_two_pow s 1
  have h2 := Nat.and_two_pow s 2
  simp only [pow_zero, pow_one, mul_one] at h0 h1
  have h2' : s &&& 4 = (s.testBit 2).toNat * 4 := h2
  unfold status_of_word CALC_STATUS_BUSY CALC_STATUS_ERROR CALC_STATUS_DONE
  rw [h0, h1, h2']
  cases s.testBit 0 <;> cases s.testBit 1 <;> cases s.testBit 2 <;> rfl

/-- C19: on an initialised driver `calculator_get_status` loads the STATUS word `s`
once and returns busy = bit 0, error = bit 1, done = bit 2 of `s`; a second call
loads STATUS again and decodes the new word; on an uninitialised driver it returns
three false flags and loads nothing. -/
theorem get_status_decodes (w : World) :
    (w.calculator_regs = true →
      calculator_get_status w
          = ({ busy := (w.hw w.trace 4 % WORD).testBit 0,
               error := (w.hw w.trace 4 % WORD).testBit 1,
               done := (w.hw w.trace 4 % WORD).testBit 2 },
             { w with trace := Event.read (CALC_REG_STATUS / 4) (w.hw w.trace 4 % WORD)
                        :: w.trace }) ∧
        calculator_get_status (calculator_get_status w).2
          = ({ busy := (status_at w 1).testBit 0, error := (status_at w 1).testBit 1,
               done := (status_at w 1).testBit 2 },
             { w with trace := Event.read 4 (status_at w 1) :: Event.read 4 (status_at w 0)
                        :: w.trace })) ∧
    (w.calculator_regs = false →
      calculator_get_status w = ({ busy := false, error := false, done := false }, w)) := by
  refine ⟨fun hreg => ⟨?_, ?_⟩, fun hreg => ?_⟩
  · rw [get_status_init w hreg, status_of_word_bits]
    rfl
  · rw [get_status_init w hreg]
    show calculator_get_status (after_polls w 1) = _
    rw [get_status_init (after_polls w 1) hreg, status_of_word_bits, status_at_add,
      after_polls_add]
    rfl
  · simp [calculator_get_status, hreg]

/-- Witness of C19: the device shows 1 (busy) at the first load and 4 (done) at the
second; the two calls decode the two words. -/
theorem get_status_decodes_witness :
    (calculator_get_status (fresh_world (late_hw 1))).1
      = { busy := true, error := false, done := false } ∧
    (calculator_get_status (calculator_get_status (fresh_world (late_hw 1))).2).1
      = { busy := false, error := false, done := true } ∧
    (calculator_get_status (calculator_get_status (fresh_world (late_hw 1))).2).2.trace
      = [Event.read 4 4, Event.read 4 1] := by
  have h := (get_status_decodes (fresh_world (late_hw 1))).1 rfl
  exact ⟨by rw [h.1]; decide, by rw [h.2]; decide, by rw [h.2]; decide⟩

/-! ## Buffer manager -/

/-- From a fill count `f ≤ 256`, the first `256 - f` writes succeed, every later one
fails, and the fill count ends at `min 256 (f + n)`. -/
theorem write_prices_run (prices : List Nat) : ∀ (b : BufferState) (w : World),
    b.fill_count ≤ BUFFER_CAPACITY →
    (write_prices b w prices).1
        = List.replicate (min prices.length (BUFFER_CAPACITY - b.fill_count)) 0
          ++ List.replicate (prices.length - (BUFFER_CAPACITY - b.fill_count)) (-1) ∧
      (write_prices b w prices).2.1.fill_count
        = min BUFFER_CAPACITY (b.fill_count + prices.length) := by
  induction prices with
  | nil =>
    intro b w h
    simp [write_prices]
    omega
  | cons price rest ih =>
    intro b w h
    by_cases hfull : b.fill_count = BUFFER_CAPACITY
    · have hstep : calculator_buffer_write_price b w price = (-1, b, w) := by
        simp [calculator_buffer_write_price, hfull]
      obtain ⟨h1, h2⟩ := ih b w h
      simp only [write_prices, hstep]
      rw [h1, h2, hfull]
      simp [List.replicate_succ]
    · have hstep : calculator_buffer_write_price b w price
          = (0, { b with fill_count := b.fill_count + 1 },
              calculator_write_reg w CALC_REG_BUFFER_WRITE (price % WORD)) := by
        simp [calculator_buffer_write_price, hfull]
      have hlt : b.fill_count < BUFFER_CAPACITY := lt_of_le_of_ne h hfull
      obtain ⟨h1, h2⟩ := ih { b with fill_count := b.fill_count + 1 }
        (calculator_write_reg w CALC_REG_BUFFER_WRITE (price % WORD)) hlt
      simp only [write_prices, hstep]
      rw [h1, h2]
      have e1 : min (price :: rest).length (BUFFER_CAPACITY - b.fill_count)
          = min rest.length (BUFFER_CAPACITY - (b.fill_count + 1)) + 1 := by
        simp only [List.length_cons]; omega
      have e2 : (price :: rest).length - (BUFFER_CAPACITY - b.fill_count)
          = rest.length - (BUFFER_CAPACITY - (b.fill_count + 1)) := by
        simp only [List.length_cons]; omega
      have e3 : b.fill_count + (price :: rest).length = b.fill_count + 1 + rest.length := by
        simp only [List.length_cons]; omega
      rw [e1, e2, e3, List.replicate_succ]
      exact ⟨rfl, rfl⟩

/-- C20: starting from a reset buffer, 257 consecutive calls of
`calculator_buffer_write_price`, whatever the prices, return 0 for the first 256 and
-1 for the 257th, and leave the fill count at 256. -/
theorem buffer_full_after_capacity_writes (b : BufferState) (w : World)
    (prices : List Nat) (hlen : prices.length = 257) :
    (write_prices (calculator_buffer_reset b w).1 (calculator_buffer_reset b w).2 prices).1
        = List.replicate 256 0 ++ [-1] ∧
      (write_prices (calculator_buffer_reset b w).1 (calculator_buffer_reset b w).2
        prices).2.1.fill_count = 256 := by
  have h := write_prices_run prices (calculator_buffer_reset b w).1
    (calculator_buffer_reset b w).2 (by simp [calculator_buffer_reset])
  have hf : (calculator_buffer_reset b w).1.fill_count = 0 := rfl
  rw [hf, hlen] at h
  exact h

/-- Witness of C20: 257 writes of the price 1.0 after the reset of a buffer that
held 5 prices. -/
theorem buffer_full_after_capacity_writes_witness :
    (List.replicate 257 0x3F800000).length = 257 ∧
    (write_prices
        (calculator_buffer_reset { fill_count := 5, window_size := 10, alpha := 0 }
          (fresh_world (sync_hw 0))).1
        (calculator_buffer_reset { fill_count := 5, window_size := 10, alpha := 0 }
          (fresh_world (sync_hw 0))).2
        (List.replicate 257 0x3F800000)).1
      = List.replicate 256 0 ++ [-1] :=
  ⟨List.length_replicate _ _,
    (buffer_full_after_capacity_writes { fill_count := 5, window_size := 10, alpha := 0 }
      (fresh_world (sync_hw 0)) (List.replicate 257 0x3F800000)
      (List.length_replicate _ _)).1⟩

/-! ## Success of the wait, frame of a register write, frame of `*result` -/

/-- C26: `calculator_wait_for_completion` never leaves through the `return 0` after
the `do ... while`; whenever it returns 0 it has taken the success `return` of line
215, and the status returned by its last call of `calculator_get_status` shows done
set or busy clear: on an initialised driver that status decodes the word of the last
STATUS load, on an uninitialised driver it is the all-false status returned without
a load. -/
theorem wait_success_has_evidence (w : World) (r : WaitResult)
    (hr : calculator_wait_for_completion w = some r) :
    r.exit ≠ WaitExit.fell_through ∧
    (r.ret = 0 →
      r.exit = WaitExit.completed ∧
      (w.calculator_regs = true →
        ∃ n : Nat, 1 ≤ n ∧ r.poll_count = n ∧ r.world = after_polls w n ∧
          shows_complete (status_at w (n - 1)) = true ∧
          ∀ j, j + 1 < n → busy_only (status_at w j) = true) ∧
      (w.calculator_regs = false →
        r.poll_count = 1 ∧ r.world = w ∧
        calculator_get_status w = ({ busy := false, error := false, done := false }, w))) := by
  cases hreg : w.calculator_regs with
  | false =>
    rw [wait_uninitialised w hreg] at hr
    have := Option.some.inj hr
    subst this
    refine ⟨by simp, fun _ => ⟨rfl, fun h => absurd h (by simp), fun _ => ⟨rfl, rfl, ?_⟩⟩⟩
    simp [calculator_get_status, hreg]
  | true =>
    obtain ⟨n, r', hr', hn1, _, hpre, hend⟩ := wait_run w hreg
    rw [hr] at hr'
    have := Option.some.inj hr'
    subst this
    rcases hend with ⟨hc, h⟩ | ⟨_, _, h⟩ | ⟨_, _, h⟩
    · refine ⟨by rw [h]; simp, fun _ => ⟨by rw [h], fun _ =>
        ⟨n, hn1, by rw [h]; simp, by rw [h], hc, hpre⟩, fun h' => absurd h' (by simp)⟩⟩
    · refine ⟨by rw [h]; simp, fun h0 => ?_⟩
      rw [h] at h0
      exact absurd (show (-1 : Int) = 0 from h0) (by decide)
    · refine ⟨by rw [h]; simp, fun h0 => ?_⟩
      rw [h] at h0
      exact absurd (show (-1 : Int) = 0 from h0) (by decide)

/-- Witness of C26: the device shows busy at the first load and done at the second. -/
theorem wait_success_has_evidence_witness :
    calculator_wait_for_completion (fresh_world (late_hw 1))
      = some { ret := 0, poll_count := 2, exit := .completed,
               world := after_polls (fresh_world (late_hw 1)) 2 } ∧
    WaitExit.completed ≠ WaitExit.fell_through :=
  ⟨rfl,
    (wait_success_has_evidence (fresh_world (late_hw 1))
      { ret := 0, poll_count := 2, exit := .completed,
        world := after_polls (fresh_world (late_hw 1)) 2 } rfl).1⟩

theorem plain_hw_write_reg (init : Nat → Nat) (w : World) (hreg : w.calculator_regs = true)
    (offset v : Nat) (hoff : offset ≤ 0x3C) (idx : Nat) :
    plain_hw init (calculator_write_reg w offset v).trace idx
      = if idx = offset / 4 then v % WORD else plain_hw init w.trace idx := by
  obtain ⟨v1, v2, htr⟩ := write_reg_trace w offset v hreg hoff
  rw [htr]
  by_cases h : idx = offset / 4
  · simp [plain_hw, h]
  · have h' : ¬ offset / 4 = idx := fun e => h e.symm
    simp [plain_hw, h, h']

theorem read_reg_plain (init : Nat → Nat) (w : World) (hreg : w.calculator_regs = true)
    (hplain : w.hw = plain_hw init) (offset : Nat) (hoff : offset ≤ 0x3C) :
    (calculator_read_reg w offset).1 = plain_hw init w.trace (offset / 4) % WORD := by
  have hno : ¬ offset > 0x3C := by omega
  simp [calculator_read_reg, hreg, hno, load, hplain]

/-- C27, refuted as stated: the four offsets 0x3C..0x3F of word 15 do not all address
it.  On plain memory a write of 7 through 0x3C is read back as 0 through 0x3D and
through 0x3F, which the range check rejects, and a write through 0x3F adds no store. -/
theorem top_word_unaligned_offsets_rejected :
    0x3D / 4 = 0x3C / 4 ∧ 0x3F / 4 = 0x3C / 4 ∧
    (calculator_read_reg
      (calculator_write_reg (fresh_world (plain_hw (fun _ => 0))) 0x3C 7) 0x3C).1 = 7 ∧
    (calculator_read_reg
      (calculator_write_reg (fresh_world (plain_hw (fun _ => 0))) 0x3C 7) 0x3D).1 = 0 ∧
    (calculator_read_reg
      (calculator_write_reg (fresh_world (plain_hw (fun _ => 0))) 0x3C 7) 0x3F).1 = 0 ∧
    (calculator_write_reg (fresh_world (plain_hw (fun _ => 0))) 0x3F 7).trace = [] := by
  decide

/-- C27, amended: on an initialised driver whose registers behave as plain memory, for
every `offset ≤ 0x3C`, `calculator_write_reg(offset, v)` addresses word `offset / 4`,
one of the words 0..15; afterwards that word holds `v` and every other word holds what
it held before; the only store added to the history is that one; a read through any
offset `offset2 ≤ 0x3C` with `offset2 / 4 = offset / 4` returns `v`, no alignment being
checked; for the words `k ≤ 14` the four offsets `4k .. 4k+3` are all such offsets; for
word 15 only 0x3C is, the offsets 0x3D..0x3F being rejected: a write through them
leaves the state as it was and a read returns 0. -/
theorem write_reg_frame (w : World) (init : Nat → Nat) (hreg : w.calculator_regs = true)
    (hplain : w.hw = plain_hw init) (offset v : Nat) (hoff : offset ≤ 0x3C)
    (hv : v < WORD) :
    offset / 4 < 16 ∧
    plain_hw init (calculator_write_reg w offset v).trace (offset / 4) = v ∧
    (∀ idx, idx ≠ offset / 4 →
      plain_hw init (calculator_write_reg w offset v).trace idx = plain_hw init w.trace idx) ∧
    writes_of (calculator_write_reg w offset v).trace = writes_of w.trace ++ [(offset / 4, v)] ∧
    (∀ offset2, offset2 ≤ 0x3C → offset2 / 4 = offset / 4 →
      (calculator_read_reg (calculator_write_reg w offset v) offset2).1 = v) ∧
    (∀ k j i, k ≤ 14 → j < 4 → i < 4 →
      (calculator_read_reg (calculator_write_reg w (4 * k + j) v) (4 * k + i)).1 = v) ∧
    (∀ offset3 (w' : World), 0x3C < offset3 →
      calculator_write_reg w' offset3 v = w' ∧ calculator_read_reg w' offset3 = (0, w')) := by
  have hframe : ∀ (offset : Nat), offset ≤ 0x3C → ∀ offset2, offset2 ≤ 0x3C →
      offset2 / 4 = offset / 4 →
      (calculator_read_reg (calculator_write_reg w offset v) offset2).1 = v := by
    intro offset hoff offset2 hoff2 hsame
    have hsm := same_machine_write_reg w offset v
    rw [read_reg_plain init (calculator_write_reg w offset v) (hsm.1.trans hreg)
      (hsm.2.2.2.trans hplain) offset2 hoff2, hsame,
      plain_hw_write_reg init w hreg offset v hoff, if_pos rfl, Nat.mod_mod,
      Nat.mod_eq_of_lt hv]
  refine ⟨by omega, ?_, ?_, ?_, hframe offset hoff, ?_, ?_⟩
  · rw [plain_hw_write_reg init w hreg offset v hoff, if_pos rfl, Nat.mod_eq_of_lt hv]
  · intro idx hidx
    rw [plain_hw_write_reg init w hreg offset v hoff, if_neg hidx]
  · obtain ⟨v1, v2, htr⟩ := write_reg_trace w offset v hreg hoff
    rw [htr]
    simp [writes_of, Nat.mod_eq_of_lt hv]
  · intro k j i hk hj hi
    exact hframe (4 * k + j) (by omega) (4 * k + i) (by omega) (by omega)
  · intro offset3 w' h3
    exact ⟨write_reg_out_of_range w' offset3 v h3, read_reg_out_of_range w' offset3 h3⟩

/-- Witness of the amended C27: a write through the unaligned offset 0x07 (word 1,
OPERAND_A) is read back through offset 0x04, and word 2 keeps its content. -/
theorem write_reg_frame_witness :
    (calculator_read_reg
      (calculator_write_reg (fresh_world (plain_hw (fun i => i + 100))) 0x07 0xDEADBEEF) 0x04).1
      = 0xDEADBEEF ∧
    plain_hw (fun i => i + 100)
      (calculator_write_reg (fresh_world (plain_hw (fun i => i + 100))) 0x07 0xDEADBEEF).trace 2
      = 102 :=
  ⟨(write_reg_frame (fresh_world (plain_hw (fun i => i + 100))) (fun i => i + 100) rfl rfl
      0x07 0xDEADBEEF (by decide) (by decide)).2.2.2.2.1 0x04 (by decide) (by decide),
    (write_reg_frame (fresh_world (plain_hw (fun i => i + 100))) (fun i => i + 100) rfl rfl
      0x07 0xDEADBEEF (by decide) (by decide)).2.2.1 2 (by decide)⟩

/-- C28: every call of `calculator_perform_operation` returns 0 or -1; when it returns
0 its last access is a load of RESULT and `*result` holds the word loaded; when it
returns -1, on whatever path, `*result` is exactly as it was before the call. -/
theorem perform_writes_result_iff_success (w : World) (op a b : Nat)
    (result : Option Nat) :
    ∃ r, calculator_perform_operation w op a b result = some r ∧
      (r.ret = 0 ∨ r.ret = -1) ∧
      (r.ret = 0 → ∃ x tr, r.world.trace = Event.read 3 x :: tr ∧ r.result = some x) ∧
      (r.ret ≠ 0 → r.result = result) := by
  rcases valid_or_invalid w op result with hinv | ⟨hreg, ⟨old, hres⟩, hop⟩
  · refine ⟨_, perform_invalid w op a b result hinv, Or.inr rfl, fun h => ?_, fun _ => rfl⟩
    exact absurd (show (-1 : Int) = 0 from h) (by decide)
  · subst hres
    obtain ⟨r, hr, _, hcase⟩ := perform_valid_run w hreg op hop a b old
    refine ⟨r, hr, ?_⟩
    rcases hcase with ⟨h, hres, _⟩ | ⟨_, _, _, _, _, _, _, _, _, X, _, _, _, _, htr, hX⟩
    · refine ⟨Or.inr h, fun h0 => ?_, fun _ => hres⟩
      rw [h] at h0; exact absurd h0 (by decide)
    · rcases hX with ⟨h0, x, s, _, hXe, hres, _⟩ | ⟨h, hres, _⟩ | ⟨h, hres, _⟩
      · subst hXe
        exact ⟨Or.inl h0, fun _ => ⟨x, _, by rw [htr]; rfl, hres⟩, fun hne => absurd h0 hne⟩
      · refine ⟨Or.inr h, fun h0 => ?_, fun _ => hres⟩
        rw [h] at h0; exact absurd h0 (by decide)
      · refine ⟨Or.inr h, fun h0 => ?_, fun _ => hres⟩
        rw [h] at h0; exact absurd h0 (by decide)

/-! ## Window size and windowed statistics -/

/-- C21: `calculator_set_window_size` accepts every size in 1..256, recording it as
the configured window size, and rejects 0 and every size above 256, leaving the
buffer state and the machine state exactly as they were. -/
theorem set_window_size_range (b : BufferState) (w : World) (window_size : Nat) :
    (1 ≤ window_size ∧ window_size ≤ 256 →
      (calculator_set_window_size b w window_size).1 = 0 ∧
      (calculator_set_window_size b w window_size).2.1.window_size = window_size ∧
      (calculator_set_window_size b w window_size).2.1.fill_count = b.fill_count) ∧
    (window_size = 0 ∨ 257 ≤ window_size →
      calculator_set_window_size b w window_size = (-1, b, w)) := by
  constructor
  · rintro ⟨h1, h2⟩
    have h : ¬ (window_size = 0 ∨ window_size > BUFFER_CAPACITY) := by
      unfold BUFFER_CAPACITY; omega
    simp [calculator_set_window_size, h]
  · intro h
    have h' : window_size = 0 ∨ window_size > BUFFER_CAPACITY := by
      unfold BUFFER_CAPACITY; omega
    simp [calculator_set_window_size, h']

/-- Witness of C21: 256 is accepted, 257 and 0 are rejected with the window left at
10. -/
theorem set_window_size_range_witness :
    (calculator_set_window_size { fill_count := 5, window_size := 10, alpha := 0 }
      (fresh_world (sync_hw 0)) 256).2.1.window_size = 256 ∧
    (calculator_set_window_size { fill_count := 5, window_size := 10, alpha := 0 }
      (fresh_world (sync_hw 0)) 257).2.1.window_size = 10 ∧
    (calculator_set_window_size { fill_count := 5, window_size := 10, alpha := 0 }
      (fresh_world (sync_hw 0)) 0).1 = -1 :=
  ⟨((set_window_size_range { fill_count := 5, window_size := 10, alpha := 0 }
      (fresh_world (sync_hw 0)) 256).1 (by decide)).2.1,
    by rw [(set_window_size_range { fill_count := 5, window_size := 10, alpha := 0 }
      (fresh_world (sync_hw 0)) 257).2 (by decide)],
    by rw [(set_window_size_range { fill_count := 5, window_size := 10, alpha := 0 }
      (fresh_world (sync_hw 0)) 0).2 (by decide)]⟩

/-- C22: for every buffer state whose configured window size is larger than its fill
count, and every `window` argument and `result` pointer, `calculator_sma`,
`calculator_std_dev`, `calculator_min` and `calculator_max` return -1 with the machine
state, history included, and `*result` exactly as they were: no register is loaded or
stored, so no command is started. -/
theorem windowed_statistic_needs_filled_window (b : BufferState) (w : World)
    (window : Nat) (result : Option Nat) (h : b.window_size > b.fill_count) :
    calculator_sma b w window result = some { ret := -1, result := result, world := w } ∧
    calculator_std_dev b w window result = some { ret := -1, result := result, world := w } ∧
    calculator_min b w window result = some { ret := -1, result := result, world := w } ∧
    calculator_max b w window result = some { ret := -1, result := result, world := w } := by
  simp [calculator_sma, calculator_std_dev, calculator_min, calculator_max,
    windowed_statistic, h]

/-- Witness of C22: configured window size 10 on a buffer that holds 5 prices; the
call fails whatever `window` it is given, here 3. -/
theorem windowed_statistic_needs_filled_window_witness :
    (10 : Nat) > (5 : Nat) ∧
    calculator_sma { fill_count := 5, window_size := 10, alpha := 0 } (fresh_world (sync_hw 0))
        3 (some 7)
      = some { ret := -1, result := some 7, world := fresh_world (sync_hw 0) } :=
  ⟨by decide,
    (windowed_statistic_needs_filled_window { fill_count := 5, window_size := 10, alpha := 0 }
      (fresh_world (sync_hw 0)) 3 (some 7) (by decide)).1⟩

/-- With the configured window filled (size 5, 5 prices held) `calculator_sma` goes on
to the dispatcher: against the synchronous device it returns 0 after storing the
configured window size to OPERAND_B and the control word of SMA to CONTROL. -/
theorem sma_dispatches_when_window_filled :
    (calculator_sma { fill_count := 5, window_size := 5, alpha := 0 }
        (fresh_world (sync_hw 0x40400000)) 5 (some 7)).map
      (fun r => (r.ret, r.result, writes_of r.world.trace))
      = some (0, some 0x40400000, [(1, 0), (2, 5), (0, 0x80000004)]) := by
  decide

end Calc

namespace Led

/-! ## UIO register transport -/

theorem load32_store32 (m : UioMem) (offset value : Nat) :
    load32 (store32 m offset value) offset = value % Calc.WORD := by
  have h1 : ¬ offset + 1 = offset := by omega
  have h2 : ¬ offset + 2 = offset := by omega
  have h3 : ¬ offset + 3 = offset := by omega
  have h4 : ¬ offset + 2 = offset + 1 := by omega
  have h5 : ¬ offset + 3 = offset + 1 := by omega
  have h6 : ¬ offset + 3 = offset + 2 := by omega
  simp only [load32, store32, if_true, h1, h2, h3, h4, h5, h6, if_false]
  unfold Calc.WORD
  omega

/-- C23, the code at a failing input: with a mapping of 0x1000 bytes,
`fpga_uio_write32` and `fpga_uio_read32` return 0 for offset 0xFFD although
`0xFFD + 4 > 0x1000`, and the store changes the byte at offset 0x1000, which lies
outside the mapping. -/
theorem uio_accepts_word_across_map_end :
    (fpga_uio_write32 zero_mem (some (mapped_dev 0x1000)) 0xFFD 0xFFFFFFFF).1 = 0 ∧
    (fpga_uio_read32 zero_mem (some (mapped_dev 0x1000)) 0xFFD (some 0)).1 = 0 ∧
    ¬ (0xFFD + 4 ≤ (mapped_dev 0x1000).map_size) ∧
    zero_mem.bytes 0x1000 = 0 ∧
    (fpga_uio_write32 zero_mem (some (mapped_dev 0x1000)) 0xFFD 0xFFFFFFFF).2.bytes 0x1000
      = 0xFF := by
  decide

/-- C25: `fpga_uio_write32` returns -1 exactly when `dev` is `NULL`, `dev` is not
initialised or `offset >= map_size`, and then leaves the memory as it was, and returns
0 otherwise; `fpga_uio_read32` returns -1 exactly when one of those holds or `value`
is `NULL`, and then leaves `*value` as it was, and returns 0 otherwise; when the write
and the following read at the same offset both return 0, the read yields the 32-bit
value written. -/
theorem uio_access_results (m : UioMem) (dev : Option fpga_uio_dev_t) (offset v : Nat)
    (out : Option Nat) :
    ((fpga_uio_write32 m dev offset v).1 = -1 ↔
      (dev = none ∨ ∃ d, dev = some d ∧ (d.is_initialized = false ∨ d.map_size ≤ offset))) ∧
    ((fpga_uio_write32 m dev offset v).1 = 0 ∨ (fpga_uio_write32 m dev offset v).1 = -1) ∧
    ((fpga_uio_write32 m dev offset v).1 = -1 → (fpga_uio_write32 m dev offset v).2 = m) ∧
    ((fpga_uio_read32 m dev offset out).1 = -1 ↔
      (dev = none ∨ (∃ d, dev = some d ∧ (d.is_initialized = false ∨ d.map_size ≤ offset))
        ∨ out = none)) ∧
    ((fpga_uio_read32 m dev offset out).1 = 0 ∨ (fpga_uio_read32 m dev offset out).1 = -1) ∧
    ((fpga_uio_read32 m dev offset out).1 = -1 → (fpga_uio_read32 m dev offset out).2 = out) ∧
    ((fpga_uio_write32 m dev offset v).1 = 0 →
      (fpga_uio_read32 (fpga_uio_write32 m dev offset v).2 dev offset out).1 = 0 →
      (fpga_uio_read32 (fpga_uio_write32 m dev offset v).2 dev offset out).2
        = some (v % Calc.WORD)) := by
  cases dev with
  | none => simp [fpga_uio_write32, fpga_uio_read32]
  | some d =>
    by_cases hw : d.is_initialized = false ∨ offset ≥ d.map_size
    · have hr : d.is_initialized = false ∨ out = none ∨ offset ≥ d.map_size := by
        rcases hw with h | h
        · exact Or.inl h
        · exact Or.inr (Or.inr h)
      have hw' : d.is_initialized = false ∨ d.map_size ≤ offset := hw
      simp [fpga_uio_write32, fpga_uio_read32, hw, hr, hw']
    · have hw' : ¬ (d.is_initialized = false ∨ d.map_size ≤ offset) := hw
      cases out with
      | none => simp [fpga_uio_write32, fpga_uio_read32, hw, hw']
      | some old =>
        have hr : ¬ (d.is_initialized = false ∨ some old = none ∨ offset ≥ d.map_size) := by
          intro h
          rcases h with h | h | h
          · exact hw (Or.inl h)
          · exact absurd h (by simp)
          · exact hw (Or.inr h)
        simp only [fpga_uio_write32, fpga_uio_read32, if_neg hw, if_neg hr, load32_store32]
        simp [hw']

/-- Witness of C25: a word written at the LED offset is read back; a write to an
uninitialised device is rejected and leaves the memory as it was. -/
theorem uio_access_results_witness :
    (fpga_uio_read32 (fpga_uio_write32 zero_mem (some (mapped_dev 0x1000)) 0 0xA5).2
        (some (mapped_dev 0x1000)) 0 (some 0)).2 = some (0xA5 % Calc.WORD) ∧
    (fpga_uio_write32 zero_mem none 0 0xA5).1 = -1 :=
  ⟨(uio_access_results zero_mem (some (mapped_dev 0x1000)) 0 0xA5 (some 0)).2.2.2.2.2.2
      (by decide) (by decide),
    (uio_access_results zero_mem none 0 0xA5 (some 0)).1.2 (Or.inl rfl)⟩

/-! ## LED controller -/

/-- C24, the code at a failing input: with the values of `config.h` (8 LEDs, active
low, offset 0) `led_controller_init` succeeds and stores 0 to the LED register, all
eight low bits clear, whereas `led_controller_set_mask(ctrl, 0)`, the all-off write of
`led_controller_run_animation` and `led_controller_cleanup`, stores 0xFF; for an
active-high controller both store 0. -/
theorem init_active_low_writes_zero :
    (led_controller_init zero_mem (some (board_ctrl 0 false)) (some (mapped_dev 0x1000))
      0 8 true).1 = 0 ∧
    (led_controller_init zero_mem (some (board_ctrl 0 false)) (some (mapped_dev 0x1000))
      0 8 true).2.1 = some (board_ctrl 8 true) ∧
    (led_controller_init zero_mem (some (board_ctrl 0 false)) (some (mapped_dev 0x1000))
      0 8 true).2.2.writes = [(0, 0)] ∧
    (led_controller_set_mask zero_mem (some (board_ctrl 8 true)) 0).2.writes = [(0, 0xFF)] ∧
    (led_controller_init zero_mem (some (board_ctrl 0 false)) (some (mapped_dev 0x1000))
      0 8 false).2.2.writes = [(0, 0)] ∧
    (led_controller_set_mask zero_mem (some (board_ctrl 8 false)) 0).2.writes = [(0, 0)] := by
  refine ⟨by decide, rfl, by decide, by decide, by decide, by decide⟩

theorem load32_lt (m : UioMem) (offset : Nat) : load32 m offset < 2 ^ 32 := by
  unfold load32
  have h0 := Nat.mod_lt (m.bytes offset) (by decide : 256 > 0)
  have h1 := Nat.mod_lt (m.bytes (offset + 1)) (by decide : 256 > 0)
  have h2 := Nat.mod_lt (m.bytes (offset + 2)) (by decide : 256 > 0)
  have h3 := Nat.mod_lt (m.bytes (offset + 3)) (by decide : 256 > 0)
  omega

theorem write32_ok (m : UioMem) (d : fpga_uio_dev_t) (hinit : d.is_initialized = true)
    (offset value : Nat) (hoff : offset < d.map_size) :
    fpga_uio_write32 m (some d) offset value = (0, store32 m offset value) := by
  have h : ¬ (d.is_initialized = false ∨ offset ≥ d.map_size) := by
    rw [hinit]; simp; omega
  simp only [fpga_uio_write32, if_neg h]

theorem read32_ok (m : UioMem) (d : fpga_uio_dev_t) (hinit : d.is_initialized = true)
    (offset old : Nat) (hoff : offset < d.map_size) :
    fpga_uio_read32 m (some d) offset (some old) = (0, some (load32 m offset)) := by
  have h : ¬ (d.is_initialized = false ∨ some old = none ∨ offset ≥ d.map_size) := by
    rw [hinit]; simp; omega
  simp only [fpga_uio_read32, if_neg h]

theorem two_pow_le_of_le_31 (n : Nat) (h : n ≤ 31) : 2 ^ n ≤ 2 ^ 31 :=
  Nat.pow_le_pow_right (by decide) h

/-- For `num_leds = n` in 1..31 the word of `led_controller_set_mask` is
`(active_low ? ~mask : mask) & (2^n - 1)`. -/
theorem led_register_word_eq (c : led_controller_t) (n : Nat) (hn : c.num_leds = n)
    (h31 : n ≤ 31) (mask : Nat) :
    led_register_word c mask
      = (if c.active_low then not32 mask else mask % Calc.WORD) &&& (2 ^ n - 1) := by
  have hp := two_pow_le_of_le_31 n h31
  have hpos : 0 < 2 ^ n := Nat.pow_pos (by decide)
  have hm : ((1 <<< n) + Calc.WORD - 1) % Calc.WORD = 2 ^ n - 1 := by
    rw [Nat.one_shiftLeft]
    unfold Calc.WORD
    omega
  unfold led_register_word
  rw [hn, Int.toNat_ofNat, hm]

theorem not32_testBit (x i : Nat) :
    (not32 x).testBit i = (decide (i < 32) && !x.testBit i) := by
  have hlt : x % 2 ^ 32 < 2 ^ 32 := Nat.mod_lt _ (by decide)
  have h := Nat.testBit_two_pow_sub_succ hlt i
  have e : not32 x = 2 ^ 32 - (x % 2 ^ 32 + 1) := by
    unfold not32 Calc.WORD
    omega
  rw [e, h, Nat.testBit_mod_two_pow]
  cases decide (i < 32) <;> simp

theorem led_register_word_bits (c : led_controller_t) (n : Nat) (hn : c.num_leds = n)
    (h31 : n ≤ 31) (mask i : Nat) :
    (led_register_word c mask).testBit i
      = (decide (i < n) && xor (mask.testBit i) c.active_low) := by
  rw [led_register_word_eq c n hn h31, Nat.testBit_and, Nat.testBit_two_pow_sub_one]
  by_cases hi : i < n
  · have hi32 : i < 32 := by omega
    cases hal : c.active_low with
    | true =>
      simp only [if_true, not32_testBit, hi, hi32, decide_True, Bool.true_and, Bool.and_true,
        Bool.xor_true]
    | false =>
      have e : Calc.WORD = 2 ^ 32 := rfl
      simp only [Bool.false_eq_true, if_false, e, Nat.testBit_mod_two_pow, hi, hi32,
        decide_True, Bool.true_and, Bool.and_true, Bool.xor_false]
  · simp [hi]

/-- C29: for `num_leds = n` in 1..31 on a working transport,
`led_controller_set_mask(ctrl, m)` stores exactly `(active_low ? ~m : m) & (2^n - 1)`:
bit `i` of the stored word is bit `i` of `m` XOR `active_low` for `i < n` and 0 for
`i ≥ n`; `led_controller_set_led(ctrl, i, s)` with `0 ≤ i < n` returns 0 and leaves the
register with bit `i` equal to `s` XOR `active_low` and every other bit as it was; for
an index outside `[0, n)` it returns -1 with the memory as it was. -/
theorem led_setters_polarity (m : UioMem) (c : led_controller_t) (d : fpga_uio_dev_t)
    (n : Nat) (hdev : c.uio_dev = some d) (hinit : d.is_initialized = true)
    (hoff : c.led_offset < d.map_size) (hn : c.num_leds = n) (h1 : 1 ≤ n) (h31 : n ≤ 31) :
    (∀ mask, mask < Calc.WORD →
      led_controller_set_mask m (some c) mask
        = (0, store32 m c.led_offset
            ((if c.active_low then not32 mask else mask) &&& (2 ^ n - 1))) ∧
      ∀ i, (load32 (led_controller_set_mask m (some c) mask).2 c.led_offset).testBit i
        = (decide (i < n) && xor (mask.testBit i) c.active_low)) ∧
    (∀ (i : Nat) (state : Bool), i < n →
      (led_controller_set_led m (some c) i state).1 = 0 ∧
      ∀ k, (load32 (led_controller_set_led m (some c) i state).2 c.led_offset).testBit k
        = if k = i then xor state c.active_low else (load32 m c.led_offset).testBit k) ∧
    (∀ (led_index : Int) (state : Bool), led_index < 0 ∨ led_index ≥ n →
      led_controller_set_led m (some c) led_index state = (-1, m)) := by
  refine ⟨fun mask hmask => ?_, fun i state hi => ?_, fun led_index state hidx => ?_⟩
  · have hset : led_controller_set_mask m (some c) mask
        = (0, store32 m c.led_offset (led_register_word c mask)) := by
      show fpga_uio_write32 m c.uio_dev c.led_offset (led_register_word c mask) = _
      rw [hdev, write32_ok m d hinit _ _ hoff]
    refine ⟨?_, fun i => ?_⟩
    · rw [hset, led_register_word_eq c n hn h31, Nat.mod_eq_of_lt hmask]
    · rw [hset]
      show (load32 (store32 m c.led_offset (led_register_word c mask)) c.led_offset).testBit i = _
      have e : Calc.WORD = 2 ^ 32 := rfl
      rw [load32_store32, e, Nat.testBit_mod_two_pow, led_register_word_bits c n hn h31]
      by_cases hin : i < n
      · have : i < 32 := by omega
        simp [hin, this]
      · simp [hin]
  · have hi32 : i < 32 := by omega
    have hidx : ¬ ((i : Int) < 0 ∨ (i : Int) ≥ c.num_leds) := by
      rw [hn]; omega
    have hpow : 2 ^ i < Calc.WORD :=
      lt_of_le_of_lt (two_pow_le_of_le_31 i (by omega)) (by decide)
    have hrun : led_controller_set_led m (some c) i state
        = (0, store32 m c.led_offset
            (if xor state c.active_low then load32 m c.led_offset ||| 2 ^ i
             else load32 m c.led_offset &&& not32 (2 ^ i))) := by
      unfold led_controller_set_led
      simp only [if_neg hidx, hdev, read32_ok m d hinit _ 0 hoff, Int.toNat_ofNat,
        Nat.one_shiftLeft, Nat.mod_eq_of_lt hpow]
      exact write32_ok m d hinit _ _ hoff
    refine ⟨by rw [hrun], fun k => ?_⟩
    rw [hrun]
    show (load32 (store32 m c.led_offset _) c.led_offset).testBit k = _
    have e : Calc.WORD = 2 ^ 32 := rfl
    have hcur := load32_lt m c.led_offset
    rw [load32_store32, e, Nat.testBit_mod_two_pow]
    by_cases hk32 : k < 32
    · by_cases hki : k = i
      · subst hki
        cases hx : xor state c.active_low with
        | true => simp [hk32, Nat.testBit_or, Nat.testBit_two_pow]
        | false => simp [hk32, Nat.testBit_and, not32_testBit, Nat.testBit_two_pow]
      · have hik : ¬ i = k := fun h => hki h.symm
        cases hx : xor state c.active_low with
        | true => simp [hk32, hki, hik, Nat.testBit_or, Nat.testBit_two_pow]
        | false => simp [hk32, hki, hik, Nat.testBit_and, not32_testBit, Nat.testBit_two_pow]
    · have hki : ¬ k = i := by omega
      have hfalse : (load32 m c.led_offset).testBit k = false :=
        Nat.testBit_lt_two_pow (lt_of_lt_of_le hcur (Nat.pow_le_pow_right (by decide) (by omega)))
      simp [hk32, hki, hfalse]
  · have hidx' : led_index < 0 ∨ led_index ≥ c.num_leds := by
      rw [hn]; exact hidx
    simp [led_controller_set_led, hidx']

/-- Witness of C29: the board of `config.h` (8 LEDs, active low). -/
theorem led_setters_polarity_witness :
    led_controller_set_mask zero_mem (some (board_ctrl 8 true)) 0x0F
      = (0, store32 zero_mem (board_ctrl 8 true).led_offset
          ((if (board_ctrl 8 true).active_low then not32 0x0F else 0x0F) &&& (2 ^ 8 - 1))) ∧
    (led_controller_set_led zero_mem (some (board_ctrl 8 true)) (3 : Nat) true).1 = 0 ∧
    led_controller_set_led zero_mem (some (board_ctrl 8 true)) 8 true = (-1, zero_mem) :=
  ⟨((led_setters_polarity zero_mem (board_ctrl 8 true) (mapped_dev 0x1000) 8 rfl rfl
      (by decide) rfl (by decide) (by decide)).1 0x0F (by decide)).1,
    ((led_setters_polarity zero_mem (board_ctrl 8 true) (mapped_dev 0x1000) 8 rfl rfl
      (by decide) rfl (by decide) (by decide)).2.1 3 true (by decide)).1,
    (led_setters_polarity zero_mem (board_ctrl 8 true) (mapped_dev 0x1000) 8 rfl rfl
      (by decide) rfl (by decide) (by decide)).2.2 8 true (Or.inr (by decide))⟩

/-! ## The animation loop -/

theorem set_mask_ok (m : UioMem) (c : led_controller_t) (d : fpga_uio_dev_t)
    (hdev : c.uio_dev = some d) (hinit : d.is_initialized = true)
    (hoff : c.led_offset < d.map_size) (mask : Nat) :
    led_controller_set_mask m (some c) mask
      = (0, store32 m c.led_offset (led_register_word c mask)) := by
  show fpga_uio_write32 m c.uio_dev c.led_offset (led_register_word c mask) = _
  rw [hdev, write32_ok m d hinit _ _ hoff]

theorem write_masks_cons (c : led_controller_t) (m : UioMem) (x : Nat) (l : List Nat) :
    write_masks c m (x :: l) = write_masks c (led_controller_set_mask m (some c) x).2 l := rfl

theorem write_masks_append (c : led_controller_t) (m : UioMem) (l1 l2 : List Nat) :
    write_masks c m (l1 ++ l2) = write_masks c (write_masks c m l1) l2 := by
  unfold write_masks
  rw [List.foldl_append]

/-- One iteration of the loop while `cycle_count < num_cycles`, no stop request is
seen and the transport works. -/
theorem animation_loop_step (c : led_controller_t) (d : fpga_uio_dev_t) (n : Nat)
    (hdev : c.uio_dev = some d) (hinit : d.is_initialized = true)
    (hoff : c.led_offset < d.map_size) (hn : c.num_leds = n) (h1 : 1 ≤ n) (h31 : n ≤ 31)
    (cy : Int) (stop : Nat → Bool) (hstop : ∀ k, stop k = false)
    (fuel k : Nat) (cc : Int) (hcc : cc < cy) (lm : Nat) (dir : Bool) (m : UioMem) :
    animation_loop c cy stop (fuel + 1) k cc lm dir m
      = if dir = false then
          if (lm <<< 1) % Calc.WORD ≥ 2 ^ (n - 1) then
            animation_loop c cy stop fuel (k + 1) cc ((lm <<< 1) % Calc.WORD) true
              (led_controller_set_mask m (some c) lm).2
          else
            animation_loop c cy stop fuel (k + 1) cc ((lm <<< 1) % Calc.WORD) false
              (led_controller_set_mask m (some c) lm).2
        else
          if lm >>> 1 = 1 then
            animation_loop c cy stop fuel (k + 1) (cc + 1) (lm >>> 1) false
              (led_controller_set_mask m (some c) lm).2
          else
            animation_loop c cy stop fuel (k + 1) cc (lm >>> 1) true
              (led_controller_set_mask m (some c) lm).2 := by
  have hthr : (1 <<< (c.num_leds - 1).toNat) % Calc.WORD = 2 ^ (n - 1) := by
    have e : (c.num_leds - 1).toNat = n - 1 := by rw [hn]; omega
    rw [e, Nat.one_shiftLeft]
    exact Nat.mod_eq_of_lt (lt_of_le_of_lt (two_pow_le_of_le_31 (n - 1) (by omega)) (by decide))
  have hcond : cc < cy ∧ stop k = false := ⟨hcc, hstop k⟩
  have hret : ¬ ((led_controller_set_mask m (some c) lm).1 ≠ 0) := by
    rw [set_mask_ok m c d hdev hinit hoff]; simp
  rw [animation_loop]
  simp only [if_pos hcond, if_neg hret, hthr]

theorem range_succ_map_pow (t j : Nat) :
    (List.range (t + 1 + 1)).map (fun i => 2 ^ (j + i))
      = 2 ^ j :: (List.range (t + 1)).map (fun i => 2 ^ (j + 1 + i)) := by
  rw [List.range_succ_eq_map (t + 1), List.map_cons, List.map_map]
  refine congrArg₂ _ rfl (List.map_congr_left ?_)
  intro i _
  show 2 ^ (j + (i + 1)) = 2 ^ (j + 1 + i)
  congr 1
  omega

/-- The way up: from the mask `2^j` the loop writes `2^j, .., 2^(n-2)` and arrives at
`2^(n-1)` with the direction reversed. -/
theorem animation_up (c : led_controller_t) (d : fpga_uio_dev_t) (n : Nat)
    (hdev : c.uio_dev = some d) (hinit : d.is_initialized = true)
    (hoff : c.led_offset < d.map_size) (hn : c.num_leds = n) (h1 : 1 ≤ n) (h31 : n ≤ 31)
    (cy : Int) (stop : Nat → Bool) (hstop : ∀ k, stop k = false) (cc : Int) (hcc : cc < cy)
    (F : Nat) (t : Nat) : ∀ (j k : Nat) (m : UioMem), j + t + 1 = n - 1 →
    animation_loop c cy stop (t + 1 + F) k cc (2 ^ j) false m
      = animation_loop c cy stop F (k + t + 1) cc (2 ^ (n - 1)) true
          (write_masks c m ((List.range (t + 1)).map (fun i => 2 ^ (j + i)))) := by
  induction t with
  | zero =>
    intro j k m hj
    have hshift : (2 ^ j <<< 1) % Calc.WORD = 2 ^ (n - 1) := by
      rw [Nat.shiftLeft_eq, ← Nat.pow_succ, ← hj]
      exact Nat.mod_eq_of_lt (lt_of_le_of_lt (two_pow_le_of_le_31 _ (by omega)) (by decide))
    have e : 0 + 1 + F = F + 1 := by omega
    rw [e, animation_loop_step c d n hdev hinit hoff hn h1 h31 cy stop hstop F k cc hcc,
      hshift]
    simp only [if_true, ge_iff_le, le_refl]
    rfl
  | succ t ih =>
    intro j k m hj
    have hshift : (2 ^ j <<< 1) % Calc.WORD = 2 ^ (j + 1) := by
      rw [Nat.shiftLeft_eq, ← Nat.pow_succ]
      exact Nat.mod_eq_of_lt (lt_of_le_of_lt (two_pow_le_of_le_31 _ (by omega)) (by decide))
    have hlt : ¬ (2 ^ (j + 1) ≥ 2 ^ (n - 1)) := by
      have : 2 ^ (j + 1) < 2 ^ (n - 1) := Nat.pow_lt_pow_right (by decide) (by omega)
      omega
    have e : t + 1 + 1 + F = (t + 1 + F) + 1 := by omega
    rw [e, animation_loop_step c d n hdev hinit hoff hn h1 h31 cy stop hstop _ k cc hcc,
      hshift]
    simp only [if_true, if_neg hlt]
    rw [ih (j + 1) (k + 1) _ (by omega), range_succ_map_pow, write_masks_cons]
    have ek : k + 1 + t + 1 = k + (t + 1) + 1 := by omega
    rw [ek]

/-- The way down: from the mask `2^(j+1)` the loop writes `2^(j+1), .., 2^1`, arrives
at the mask 1 with the direction reversed, and counts one cycle. -/
theorem animation_down (c : led_controller_t) (d : fpga_uio_dev_t) (n : Nat)
    (hdev : c.uio_dev = some d) (hinit : d.is_initialized = true)
    (hoff : c.led_offset < d.map_size) (hn : c.num_leds = n) (h1 : 1 ≤ n) (h31 : n ≤ 31)
    (cy : Int) (stop : Nat → Bool) (hstop : ∀ k, stop k = false) (cc : Int) (hcc : cc < cy)
    (F : Nat) (j : Nat) : ∀ (k : Nat) (m : UioMem),
    animation_loop c cy stop (j + 1 + F) k cc (2 ^ (j + 1)) true m
      = animation_loop c cy stop F (k + j + 1) (cc + 1) 1 false
          (write_masks c m ((List.range (j + 1)).reverse.map (fun i => 2 ^ (i + 1)))) := by
  induction j with
  | zero =>
    intro k m
    have e : 0 + 1 + F = F + 1 := by omega
    have hs : (2 ^ (0 + 1)) >>> 1 = 1 := by decide
    rw [e, animation_loop_step c d n hdev hinit hoff hn h1 h31 cy stop hstop F k cc hcc, hs]
    simp only [Bool.true_eq_false, if_false, if_true]
    rfl
  | succ j ih =>
    intro k m
    have hs : (2 ^ (j + 1 + 1)) >>> 1 = 2 ^ (j + 1) := by
      rw [Nat.shiftRight_eq_div_pow, pow_one, Nat.pow_succ, Nat.mul_div_cancel _ (by decide)]
    have hne : ¬ (2 ^ (j + 1) = 1) := by
      have : 2 ^ (j + 1) ≥ 2 := by
        rw [Nat.pow_succ]
        have := Nat.pow_pos (n := j) (by decide : 0 < 2)
        omega
      omega
    have e : j + 1 + 1 + F = (j + 1 + F) + 1 := by omega
    rw [e, animation_loop_step c d n hdev hinit hoff hn h1 h31 cy stop hstop _ k cc hcc, hs]
    simp only [Bool.true_eq_false, if_false, if_neg hne]
    rw [ih (k + 1) _, List.range_succ (j + 1), List.reverse_append, List.reverse_singleton,
      List.singleton_append, List.map_cons, write_masks_cons]
    have ek : k + 1 + j + 1 = k + (j + 1) + 1 := by omega
    rw [ek]

/-- One sweep: `2 * (n - 1)` iterations write the masks of `sweep n` and count one
cycle. -/
theorem animation_cycle (c : led_controller_t) (d : fpga_uio_dev_t) (n : Nat)
    (hdev : c.uio_dev = some d) (hinit : d.is_initialized = true)
    (hoff : c.led_offset < d.map_size) (hn : c.num_leds = n) (h2 : 2 ≤ n) (h31 : n ≤ 31)
    (cy : Int) (stop : Nat → Bool) (hstop : ∀ k, stop k = false) (cc : Int) (hcc : cc < cy)
    (F k : Nat) (m : UioMem) :
    animation_loop c cy stop (2 * (n - 1) + F) k cc 1 false m
      = animation_loop c cy stop F (k + 2 * (n - 1)) (cc + 1) 1 false
          (write_masks c m (sweep n)) := by
  obtain ⟨t, ht⟩ : ∃ t, n - 1 = t + 1 := ⟨n - 2, by omega⟩
  have e1 : 2 * (n - 1) + F = t + 1 + (t + 1 + F) := by omega
  have hup := animation_up c d n hdev hinit hoff hn (by omega) h31 cy stop hstop cc hcc
    (t + 1 + F) t 0 k m (by omega)
  have hdown := animation_down c d n hdev hinit hoff hn (by omega) h31 cy stop hstop cc hcc
    F t (k + t + 1)
    (write_masks c m ((List.range (t + 1)).map (fun i => 2 ^ (0 + i))))
  have hpow : (2 : Nat) ^ 0 = 1 := rfl
  rw [hpow] at hup
  rw [e1, hup, ht, hdown]
  have e2 : k + t + 1 + t + 1 = k + 2 * (t + 1) := by omega
  rw [e2]
  unfold sweep
  rw [ht, write_masks_append]
  simp only [Nat.zero_add]

/-- `r` sweeps in a row bring `cycle_count` from `cy - r` to `cy`. -/
theorem animation_cycles (c : led_controller_t) (d : fpga_uio_dev_t) (n : Nat)
    (hdev : c.uio_dev = some d) (hinit : d.is_initialized = true)
    (hoff : c.led_offset < d.map_size) (hn : c.num_leds = n) (h2 : 2 ≤ n) (h31 : n ≤ 31)
    (cy : Int) (stop : Nat → Bool) (hstop : ∀ k, stop k = false) (F : Nat) (r : Nat) :
    ∀ (cc : Int) (k : Nat) (m : UioMem), cc + r = cy →
    animation_loop c cy stop (2 * (n - 1) * r + F) k cc 1 false m
      = animation_loop c cy stop F (k + 2 * (n - 1) * r) cy 1 false
          (write_masks c m (animation_masks n r)) := by
  induction r with
  | zero =>
    intro cc k m hcc
    have : cc = cy := by omega
    subst this
    simp only [Nat.mul_zero, Nat.zero_add, Nat.add_zero]
    rfl
  | succ r ih =>
    intro cc k m hcc
    have hlt : cc < cy := by omega
    have e1 : 2 * (n - 1) * (r + 1) + F = 2 * (n - 1) + (2 * (n - 1) * r + F) := by
      rw [Nat.mul_succ]; omega
    rw [e1, animation_cycle c d n hdev hinit hoff hn h2 h31 cy stop hstop cc hlt,
      ih (cc + 1) _ _ (by omega)]
    have e2 : k + 2 * (n - 1) + 2 * (n - 1) * r = k + 2 * (n - 1) * (r + 1) := by
      rw [Nat.mul_succ]; omega
    rw [e2]
    have e3 : animation_masks n (r + 1) = sweep n ++ animation_masks n r := by
      simp [animation_masks, List.replicate_succ]
    rw [e3, write_masks_append]

theorem sweep_length (n : Nat) : (sweep n).length = 2 * (n - 1) := by
  simp [sweep]
  omega

theorem animation_masks_length (n r : Nat) :
    (animation_masks n r).length = 2 * (n - 1) * r := by
  induction r with
  | zero => rfl
  | succ r ih =>
    have e3 : animation_masks n (r + 1) = sweep n ++ animation_masks n r := by
      simp [animation_masks, List.replicate_succ]
    rw [e3, List.length_append, ih, sweep_length, Nat.mul_succ]
    omega

theorem sweep_single_bits (n : Nat) : ∀ x ∈ sweep n, ∃ j, j ≤ n - 1 ∧ x = 2 ^ j := by
  intro x hx
  unfold sweep at hx
  rcases List.mem_append.1 hx with h | h
  · obtain ⟨i, hi, rfl⟩ := List.mem_map.1 h
    exact ⟨i, by have := List.mem_range.1 hi; omega, rfl⟩
  · obtain ⟨i, hi, rfl⟩ := List.mem_map.1 h
    have := List.mem_range.1 (List.mem_reverse.1 hi)
    exact ⟨i + 1, by omega, rfl⟩

theorem animation_masks_single_bits (n r : Nat) :
    ∀ x ∈ animation_masks n r, ∃ j, j ≤ n - 1 ∧ x = 2 ^ j := by
  intro x hx
  unfold animation_masks at hx
  obtain ⟨l, hl, hxl⟩ := List.mem_flatten.1 hx
  have : l = sweep n := (List.mem_replicate.1 hl).2
  subst this
  exact sweep_single_bits n x hxl

theorem write_masks_writes (c : led_controller_t) (d : fpga_uio_dev_t)
    (hdev : c.uio_dev = some d) (hinit : d.is_initialized = true)
    (hoff : c.led_offset < d.map_size) (l : List Nat) : ∀ (m : UioMem),
    (write_masks c m l).writes
      = (l.map (fun x => (c.led_offset, led_register_word c x % Calc.WORD))).reverse
          ++ m.writes := by
  induction l with
  | nil => intro m; rfl
  | cons x l ih =>
    intro m
    rw [write_masks_cons, ih, set_mask_ok m c d hdev hinit hoff]
    simp [store32]

/-- C30: for `num_leds = n` in 2..31 and `num_cycles = cycles ≥ 1`, on a working
transport and with no stop request ever seen, `led_controller_run_animation` returns:
with `2 * (n - 1) * cycles + 1` iterations of fuel or more, the result is the status 0
of the final `led_controller_set_mask(ctrl, 0)`; before that write the loop wrote the
masks of `animation_masks n cycles`, in order and nothing else, which are
`2 * (n - 1) * cycles` masks, each a single bit `2^j` with `j ≤ n - 1`; for
`num_cycles ≤ 0` the call returns -1 with the memory as it was. -/
theorem run_animation_terminates (m : UioMem) (c : led_controller_t) (d : fpga_uio_dev_t)
    (n cycles : Nat) (stop : Nat → Bool) (extra : Nat)
    (hdev : c.uio_dev = some d) (hinit : d.is_initialized = true)
    (hoff : c.led_offset < d.map_size) (hn : c.num_leds = n) (h2 : 2 ≤ n) (h31 : n ≤ 31)
    (hcycles : 1 ≤ cycles) (hstop : ∀ k, stop k = false) :
    led_controller_run_animation (2 * (n - 1) * cycles + 1 + extra) m (some c) cycles stop
      = some (0, (led_controller_set_mask (write_masks c m (animation_masks n cycles))
          (some c) 0).2) ∧
    (led_controller_set_mask (write_masks c m (animation_masks n cycles)) (some c) 0).2.writes
      = (c.led_offset, led_register_word c 0 % Calc.WORD)
        :: ((animation_masks n cycles).map
              (fun x => (c.led_offset, led_register_word c x % Calc.WORD))).reverse
        ++ m.writes ∧
    (animation_masks n cycles).length = 2 * (n - 1) * cycles ∧
    (∀ x ∈ animation_masks n cycles, ∃ j, j ≤ n - 1 ∧ x = 2 ^ j) ∧
    (∀ (fuel : Nat) (num_cycles : Int), num_cycles ≤ 0 →
      led_controller_run_animation fuel m (some c) num_cycles stop = some (-1, m)) := by
  refine ⟨?_, ?_, animation_masks_length n cycles, animation_masks_single_bits n cycles, ?_⟩
  · have hpos : ¬ ((cycles : Int) ≤ 0) := by omega
    unfold led_controller_run_animation
    simp only [if_neg hpos]
    have e : 2 * (n - 1) * cycles + 1 + extra = 2 * (n - 1) * cycles + (extra + 1) := by omega
    rw [e, animation_cycles c d n hdev hinit hoff hn h2 h31 cycles stop hstop (extra + 1)
      cycles 0 0 m (by omega), animation_loop]
    have hend : ¬ ((cycles : Int) < cycles ∧ stop (0 + 2 * (n - 1) * cycles) = false) := by
      intro h; omega
    rw [if_neg hend, set_mask_ok _ c d hdev hinit hoff]
  · rw [set_mask_ok _ c d hdev hinit hoff]
    show (c.led_offset, led_register_word c 0 % Calc.WORD) :: (write_masks c m _).writes = _
    rw [write_masks_writes c d hdev hinit hoff]
    rfl
  · intro fuel num_cycles hle
    simp [led_controller_run_animation, hle]

/-- Witness of C30: the board of `config.h` (8 LEDs, active low) and its 60 cycles:
840 animation writes, then the all-off write. -/
theorem run_animation_terminates_witness :
    led_controller_run_animation (2 * (8 - 1) * 60 + 1 + 0) zero_mem (some (board_ctrl 8 true))
        (60 : Nat) (fun _ => false)
      = some (0, (led_controller_set_mask
          (write_masks (board_ctrl 8 true) zero_mem (animation_masks 8 60))
          (some (board_ctrl 8 true)) 0).2) ∧
    (animation_masks 8 60).length = 2 * (8 - 1) * 60 :=
  ⟨(run_animation_terminates zero_mem (board_ctrl 8 true) (mapped_dev 0x1000) 8 60
      (fun _ => false) 0 rfl rfl (by decide) rfl (by decide) (by decide) (by decide)
      (fun _ => rfl)).1,
    (run_animation_terminates zero_mem (board_ctrl 8 true) (mapped_dev 0x1000) 8 60
      (fun _ => false) 0 rfl rfl (by decide) rfl (by decide) (by decide) (by decide)
      (fun _ => rfl)).2.2.1⟩

end Led
